import Mathlib

/-!
Verification of the ProjectStrataML workspace metadata engine.

This development gives a shallow embedding of the two core tools of the
repository — the workspace indexer (`tools/index.py`, class
`WorkspaceIndexer`) and the compliance rule engine (`tools/doctor.py`,
class `RepositoryDoctor`) — and proves or refutes the specified
properties about them.

Modelling conventions:
- Structured values produced by the YAML / JSON parsers are modelled by
  `PyVal` (null, booleans, integers, floats, strings, lists,
  dictionaries whose keys may be strings or integers — YAML permits
  non-string keys — and `datetime.date`/`datetime.datetime` values,
  which `yaml.safe_load` yields for unquoted timestamps).  Keys appear
  in insertion order, as in Python dictionaries.  A finite float is
  identified by its shortest round-trip decimal representation, which
  both parsers and `json.dumps` preserve exactly.
- The filesystem is a finite tree `FSNode` of named entries; a file is
  characterised by how the program can observe it: the outcome of
  parsing it as YAML (`none` encodes a `yaml.YAMLError`), the outcome of
  parsing it as JSON (`none` encodes a `json.JSONDecodeError`), its text
  content, and its size in bytes.
- Python statements that can raise are modelled in the `Except PyExc`
  monad; exception classes that the source distinguishes (`TypeError`
  from `x in y` on a non-container, `AttributeError` from `.get` /
  `.startswith` on the wrong type, `NotADirectoryError` from `iterdir`
  on a file, `IsADirectoryError` from `open` on a directory) are listed
  in `PyExc`.
- Stateful accumulation in `RepositoryDoctor` (the `warnings`, `errors`
  and `validation_results` members) is modelled with `StateT` over
  `Except PyExc`.
-/

/-- A Python dictionary key as produced by `yaml.safe_load`: either a
string or an integer (YAML allows non-string mapping keys). -/
inductive PyKey where
  | kstr (s : String)
  | kint (n : Int)
deriving DecidableEq, Repr

/-- A Python float as produced by the parsers: a finite value,
identified by its shortest round-trip decimal representation (the
`repr` form, which `json.dumps` emits and `json.loads` parses back to
the very same value), an infinity, or a NaN. -/
inductive PyFloat where
  | finite (lit : String)
  | inf (neg : Bool)
  | nan
deriving DecidableEq, Repr

/-- A structured value as produced by `yaml.safe_load` / `json.load`.
Besides null, booleans, integers, strings, lists and dictionaries,
`yaml.safe_load` also yields floats (`1.5`, `.inf`, `.nan`) and — for
unquoted YAML timestamps such as `created_at: 2024-01-01` —
`datetime.date`/`datetime.datetime` values, modelled by `vdate`
carrying the ISO rendering. -/
inductive PyVal where
  | vnull
  | vbool (b : Bool)
  | vint (n : Int)
  | vstr (s : String)
  | vlist (xs : List PyVal)
  | vdict (es : List (PyKey × PyVal))
  | vfloat (f : PyFloat)
  | vdate (iso : String)
deriving Repr

mutual

def pyValDecEq : (a b : PyVal) → Decidable (a = b)
  | .vnull, .vnull => isTrue rfl
  | .vnull, .vbool _ => isFalse nofun
  | .vnull, .vint _ => isFalse nofun
  | .vnull, .vstr _ => isFalse nofun
  | .vnull, .vlist _ => isFalse nofun
  | .vnull, .vdict _ => isFalse nofun
  | .vnull, .vfloat _ => isFalse nofun
  | .vnull, .vdate _ => isFalse nofun
  | .vbool _, .vnull => isFalse nofun
  | .vbool a, .vbool b =>
    match decEq a b with
    | isTrue h => isTrue (h ▸ rfl)
    | isFalse h => isFalse (fun e => h (PyVal.vbool.inj e))
  | .vbool _, .vint _ => isFalse nofun
  | .vbool _, .vstr _ => isFalse nofun
  | .vbool _, .vlist _ => isFalse nofun
  | .vbool _, .vdict _ => isFalse nofun
  | .vbool _, .vfloat _ => isFalse nofun
  | .vbool _, .vdate _ => isFalse nofun
  | .vint _, .vnull => isFalse nofun
  | .vint _, .vbool _ => isFalse nofun
  | .vint a, .vint b =>
    match decEq a b with
    | isTrue h => isTrue (h ▸ rfl)
    | isFalse h => isFalse (fun e => h (PyVal.vint.inj e))
  | .vint _, .vstr _ => isFalse nofun
  | .vint _, .vlist _ => isFalse nofun
  | .vint _, .vdict _ => isFalse nofun
  | .vint _, .vfloat _ => isFalse nofun
  | .vint _, .vdate _ => isFalse nofun
  | .vstr _, .vnull => isFalse nofun
  | .vstr _, .vbool _ => isFalse nofun
  | .vstr _, .vint _ => isFalse nofun
  | .vstr a, .vstr b =>
    match decEq a b with
    | isTrue h => isTrue (h ▸ rfl)
    | isFalse h => isFalse (fun e => h (PyVal.vstr.inj e))
  | .vstr _, .vlist _ => isFalse nofun
  | .vstr _, .vdict _ => isFalse nofun
  | .vstr _, .vfloat _ => isFalse nofun
  | .vstr _, .vdate _ => isFalse nofun
  | .vlist _, .vnull => isFalse nofun
  | .vlist _, .vbool _ => isFalse nofun
  | .vlist _, .vint _ => isFalse nofun
  | .vlist _, .vstr _ => isFalse nofun
  | .vlist a, .vlist b =>
    match pyListDecEq a b with
    | isTrue h => isTrue (h ▸ rfl)
    | isFalse h => isFalse (fun e => h (PyVal.vlist.inj e))
  | .vlist _, .vdict _ => isFalse nofun
  | .vlist _, .vfloat _ => isFalse nofun
  | .vlist _, .vdate _ => isFalse nofun
  | .vdict _, .vnull => isFalse nofun
  | .vdict _, .vbool _ => isFalse nofun
  | .vdict _, .vint _ => isFalse nofun
  | .vdict _, .vstr _ => isFalse nofun
  | .vdict _, .vlist _ => isFalse nofun
  | .vdict a, .vdict b =>
    match pyDictDecEq a b with
    | isTrue h => isTrue (h ▸ rfl)
    | isFalse h => isFalse (fun e => h (PyVal.vdict.inj e))
  | .vdict _, .vfloat _ => isFalse nofun
  | .vdict _, .vdate _ => isFalse nofun
  | .vfloat _, .vnull => isFalse nofun
  | .vfloat _, .vbool _ => isFalse nofun
  | .vfloat _, .vint _ => isFalse nofun
  | .vfloat _, .vstr _ => isFalse nofun
  | .vfloat _, .vlist _ => isFalse nofun
  | .vfloat _, .vdict _ => isFalse nofun
  | .vfloat a, .vfloat b =>
    match decEq a b with
    | isTrue h => isTrue (h ▸ rfl)
    | isFalse h => isFalse (fun e => h (PyVal.vfloat.inj e))
  | .vfloat _, .vdate _ => isFalse nofun
  | .vdate _, .vnull => isFalse nofun
  | .vdate _, .vbool _ => isFalse nofun
  | .vdate _, .vint _ => isFalse nofun
  | .vdate _, .vstr _ => isFalse nofun
  | .vdate _, .vlist _ => isFalse nofun
  | .vdate _, .vdict _ => isFalse nofun
  | .vdate _, .vfloat _ => isFalse nofun
  | .vdate a, .vdate b =>
    match decEq a b with
    | isTrue h => isTrue (h ▸ rfl)
    | isFalse h => isFalse (fun e => h (PyVal.vdate.inj e))

def pyListDecEq : (xs ys : List PyVal) → Decidable (xs = ys)
  | [], [] => isTrue rfl
  | [], _ :: _ => isFalse nofun
  | _ :: _, [] => isFalse nofun
  | x :: xs, y :: ys =>
    match pyValDecEq x y, pyListDecEq xs ys with
    | isTrue h1, isTrue h2 => isTrue (h1 ▸ h2 ▸ rfl)
    | isFalse h1, _ => isFalse (fun e => h1 (List.cons.inj e).1)
    | _, isFalse h2 => isFalse (fun e => h2 (List.cons.inj e).2)

def pyDictDecEq : (es fs : List (PyKey × PyVal)) → Decidable (es = fs)
  | [], [] => isTrue rfl
  | [], _ :: _ => isFalse nofun
  | _ :: _, [] => isFalse nofun
  | (k, v) :: es, (l, w) :: fs =>
    match decEq k l, pyValDecEq v w, pyDictDecEq es fs with
    | isTrue h1, isTrue h2, isTrue h3 => isTrue (by rw [h1, h2, h3])
    | isFalse h1, _, _ => isFalse (fun e => h1 (congrArg Prod.fst (List.cons.inj e).1))
    | _, isFalse h2, _ => isFalse (fun e => h2 (congrArg Prod.snd (List.cons.inj e).1))
    | _, _, isFalse h3 => isFalse (fun e => h3 (List.cons.inj e).2)

end

instance : DecidableEq PyVal := pyValDecEq

/-- `p` occurs as a contiguous run inside `l` (the model of Python's
substring test; every list is an infix of itself and the empty list is
an infix of everything). -/
def charsInfix (p : List Char) : List Char → Bool
  | [] => p.isEmpty
  | c :: rest => p.isPrefixOf (c :: rest) || charsInfix p rest

/-- Python `s.startswith(p)` on strings, character-based. -/
def strStartsWith (s p : String) : Bool := p.data.isPrefixOf s.data

/-- Python `s.endswith(p)` on strings, character-based. -/
def strEndsWith (s p : String) : Bool := p.data.isSuffixOf s.data

/-- Python substring containment `p in s`, character-based. -/
def strContainsSub (s p : String) : Bool := charsInfix p.data s.data

/-- Python slicing `s[:n]`, character-based (never splits a code
point). -/
def strTake (s : String) (n : Nat) : String := String.mk (s.data.take n)

/-- Python truthiness of a parsed value (`bool(v)`): `None`, `False`,
`0`, the empty string, the empty list and the empty dict are falsy. -/
def pyFalsy : PyVal → Bool
  | .vnull => true
  | .vbool b => !b
  | .vint n => n == 0
  | .vstr s => s == ""
  | .vlist xs => xs.isEmpty
  | .vdict es => es.isEmpty
  | .vfloat (.finite lit) => lit == "0.0" || lit == "-0.0"
  | .vfloat (.inf _) => false
  | .vfloat .nan => false
  | .vdate _ => false

/-- Python exception classes that the embedded code distinguishes. -/
inductive PyExc where
  | typeError
  | attributeError
  | notADirectoryError
  | isADirectoryError
deriving DecidableEq, Repr

/-- Look a string key up in a dict value's entry list (first match, as
in a Python dict whose keys are unique). -/
def pyEntriesGet (es : List (PyKey × PyVal)) (k : String) : Option PyVal :=
  (es.find? (fun e => e.1 == PyKey.kstr k)).map (fun e => e.2)

/-- `v.get(k, d)` — only dictionaries have `.get`; on any other value it
raises `AttributeError`. -/
def pyDictGet (v : PyVal) (k : String) (d : PyVal) : Except PyExc PyVal :=
  match v with
  | .vdict es => .ok ((pyEntriesGet es k).getD d)
  | _ => .error .attributeError

/-- Membership test `x in v` for a string `x`: key lookup for dicts,
element equality for lists, substring test for strings; any other
container type raises `TypeError`. -/
def pyContains (v : PyVal) (x : String) : Except PyExc Bool :=
  match v with
  | .vdict es => .ok (es.any (fun e => e.1 == PyKey.kstr x))
  | .vlist xs => .ok (xs.any (fun y => y == PyVal.vstr x))
  | .vstr s => .ok (strContainsSub s x)
  | _ => .error .typeError

/-- `v.startswith(p)` — only strings have `.startswith`; on any other
value it raises `AttributeError`. -/
def pyStartswith (v : PyVal) (p : String) : Except PyExc Bool :=
  match v with
  | .vstr s => .ok (strStartsWith s p)
  | _ => .error .attributeError

/-- `repr(k)` for a dictionary key. -/
def pyKeyRepr : PyKey → String
  | .kstr s => "'" ++ s ++ "'"
  | .kint n => toString n

mutual

/-- `repr(v)`.  The precise container rendering is irrelevant to every
property proved here; strings render single-quoted without escaping. -/
def pyRepr : PyVal → String
  | .vnull => "None"
  | .vbool b => if b then "True" else "False"
  | .vint n => toString n
  | .vstr s => "'" ++ s ++ "'"
  | .vlist xs => "[" ++ String.intercalate ", " (pyReprList xs) ++ "]"
  | .vdict es => "\x7b" ++ String.intercalate ", " (pyReprEntries es) ++ "\x7d"
  | .vfloat (.finite lit) => lit
  | .vfloat (.inf neg) => if neg then "-inf" else "inf"
  | .vfloat .nan => "nan"
  | .vdate iso => "datetime.date(" ++ iso ++ ")"

def pyReprList : List PyVal → List String
  | [] => []
  | x :: xs => pyRepr x :: pyReprList xs

def pyReprEntries : List (PyKey × PyVal) → List String
  | [] => []
  | (k, v) :: es => (pyKeyRepr k ++ ": " ++ pyRepr v) :: pyReprEntries es

end

/-- `str(v)`, as used by the f-strings in `build_lineage`: identity on
strings, Python renderings for the other scalars, `repr` rendering for
containers. -/
def pyStr : PyVal → String
  | .vnull => "None"
  | .vbool b => if b then "True" else "False"
  | .vint n => toString n
  | .vstr s => s
  | .vlist xs => pyRepr (.vlist xs)
  | .vdict es => pyRepr (.vdict es)
  | .vfloat f => pyRepr (.vfloat f)
  | .vdate iso => iso

/-- Python dictionary assignment `d[k] = v` on an insertion-ordered
dictionary: an existing key keeps its position and gets the new value, a
new key is appended at the end. -/
def dictInsert {α : Type} (d : List (String × α)) (k : String) (v : α) :
    List (String × α) :=
  if d.any (fun e => e.1 == k) then
    d.map (fun e => if e.1 == k then (k, v) else e)
  else
    d ++ [(k, v)]

/-- Observable content of a single file: the outcome of `yaml.safe_load`
on it (`.error msg` = a `yaml.YAMLError` carrying the parser's
diagnostic text), the outcome of `json.load` on it (`.error msg` = a
`json.JSONDecodeError`), its text, and its size in bytes. -/
structure FileData where
  yamlParse : Except String PyVal
  jsonParse : Except String PyVal
  text : String
  size : Nat
deriving Repr

/-- A filesystem node: a file or a directory of named entries (in
`iterdir` order). -/
inductive FSNode where
  | file (fd : FileData)
  | dir (entries : List (String × FSNode))
deriving Repr

/-- Resolve one name inside a directory's entry list. -/
def lookupNode (entries : List (String × FSNode)) (name : String) : Option FSNode :=
  (entries.find? (fun e => e.1 == name)).map (fun e => e.2)

/-- Resolve a relative path (list of components) inside a directory;
traversal stops if an intermediate component is not a directory. -/
def lookupPath (entries : List (String × FSNode)) : List String → Option FSNode
  | [] => none
  | [p] => lookupNode entries p
  | p :: rest =>
    match lookupNode entries p with
    | some (.dir es) => lookupPath es rest
    | _ => none

/-- `path.exists()` for a resolved node. -/
def nodeExists (o : Option FSNode) : Bool := o.isSome

/-- `path.is_dir()` for a resolved node. -/
def nodeIsDir : Option FSNode → Bool
  | some (.dir _) => true
  | _ => false

/-- `path.is_file()` for a resolved node. -/
def nodeIsFile : Option FSNode → Bool
  | some (.file _) => true
  | _ => false

/-- `WorkspaceIndexer._load_yaml_file`: absent file → `{}`;
`yaml.YAMLError` → `{}`; otherwise `yaml.safe_load(f) or {}` (a falsy
document — in particular `None` from an empty file — is coerced to the
empty dict).  `open` on a directory raises `IsADirectoryError`, which
the `except yaml.YAMLError` clause does not catch. -/
def load_yaml_file (node : Option FSNode) : Except PyExc PyVal :=
  match node with
  | none => .ok (.vdict [])
  | some (.dir _) => .error .isADirectoryError
  | some (.file fd) =>
    .ok (match fd.yamlParse with
      | .error _ => .vdict []
      | .ok v => if pyFalsy v then .vdict [] else v)

/-- `WorkspaceIndexer._load_json_file`: absent file → `{}`;
`json.JSONDecodeError` → `{}`; otherwise the parsed value verbatim
(no falsy coercion: a JSON `null` document is returned as `None`).
`open` on a directory raises `IsADirectoryError`, which the
`except (json.JSONDecodeError, FileNotFoundError)` clause does not
catch. -/
def load_json_file (node : Option FSNode) : Except PyExc PyVal :=
  match node with
  | none => .ok (.vdict [])
  | some (.dir _) => .error .isADirectoryError
  | some (.file fd) =>
    .ok (match fd.jsonParse with
      | .error _ => .vdict []
      | .ok v => v)

/-- C1 — For every file path and format, the metadata loader
(`_load_yaml_file` / `_load_json_file`) never raises: if the file does
not exist it returns an empty document, and if the file exists but
fails to parse under its format it also returns an empty document
rather than signalling failure to its caller.  ("File path" means a
path at which no directory sits; resolving the path yields either
nothing or a file.) -/
theorem loader_never_raises (node : Option FSNode)
    (hfile : nodeIsDir node = false) :
    (∃ v, load_yaml_file node = .ok v) ∧
    (∃ v, load_json_file node = .ok v) ∧
    (node = none →
      load_yaml_file node = .ok (.vdict []) ∧
      load_json_file node = .ok (.vdict [])) ∧
    (∀ fd msg, node = some (.file fd) → fd.yamlParse = .error msg →
      load_yaml_file node = .ok (.vdict [])) ∧
    (∀ fd msg, node = some (.file fd) → fd.jsonParse = .error msg →
      load_json_file node = .ok (.vdict [])) := by
  match node with
  | none => simp [load_yaml_file, load_json_file]
  | some (.dir _) => simp [nodeIsDir] at hfile
  | some (.file fd) =>
    refine ⟨⟨_, rfl⟩, ⟨_, rfl⟩, by simp, ?_, ?_⟩
    · intro fd' msg h hy
      cases h
      simp [load_yaml_file, hy]
    · intro fd' msg h hj
      cases h
      simp [load_json_file, hj]

/-- Witness for C1: the loaders on a file that fails to parse under
both formats. -/
theorem loader_never_raises_witness :
    nodeIsDir (some (.file ⟨.error "bad", .error "bad", "x", 3⟩)) = false ∧
    load_yaml_file (some (.file ⟨.error "bad", .error "bad", "x", 3⟩)) = .ok (.vdict []) :=
  ⟨rfl,
    ((loader_never_raises (some (.file ⟨.error "bad", .error "bad", "x", 3⟩)) rfl).2.2.2.1
      ⟨.error "bad", .error "bad", "x", 3⟩ "bad" rfl rfl)⟩

/-- Record built by `index_datasets` for one dataset version
(`{"metadata": ..., "sample_counts": ..., "path": ...}`). -/
structure DatasetVersionInfo where
  metadata : PyVal
  sample_counts : List (String × Nat)
  path : String
deriving DecidableEq, Repr

/-- The split-counting step of `index_datasets`: `split_path.exists()`
guards the count, and the count is `len(list(split_path.iterdir()))`.
`iterdir` on an existing non-directory raises `NotADirectoryError`. -/
def splitSampleCount (verEntries : List (String × FSNode)) (split : String) :
    Except PyExc (Option Nat) :=
  match lookupNode verEntries split with
  | none => .ok none
  | some (.dir es) => .ok (some es.length)
  | some (.file _) => .error .notADirectoryError

/-- Per-version body of `WorkspaceIndexer.index_datasets`. -/
def index_dataset_version (dsName verName : String)
    (verEntries : List (String × FSNode)) : Except PyExc DatasetVersionInfo := do
  let metadata ← load_yaml_file (lookupNode verEntries "metadata.yaml")
  let tr ← splitSampleCount verEntries "train"
  let va ← splitSampleCount verEntries "val"
  let te ← splitSampleCount verEntries "test"
  let sample_counts :=
    [("train", tr), ("val", va), ("test", te)].filterMap
      (fun e => e.2.map (fun n => (e.1, n)))
  pure ⟨metadata, sample_counts, "datasets/" ++ dsName ++ "/" ++ verName⟩

/-- Version loop of `index_datasets`: subdirectories whose name starts
with `"v"`. -/
def index_versions_of_dataset (dsName : String)
    (dsEntries : List (String × FSNode)) :
    Except PyExc (List (String × DatasetVersionInfo)) :=
  dsEntries.foldlM (fun acc e =>
    match e.2 with
    | .dir verEntries =>
      if strStartsWith e.1 "v" then do
        let info ← index_dataset_version dsName e.1 verEntries
        pure (dictInsert acc e.1 info)
      else pure acc
    | .file _ => pure acc) []

/-- `WorkspaceIndexer.index_datasets`: absent `datasets/` directory
leaves the mapping empty; top-level entries that are directories and
not named `README.md` are indexed. -/
def index_datasets (root : List (String × FSNode)) :
    Except PyExc (List (String × List (String × DatasetVersionInfo))) :=
  match lookupNode root "datasets" with
  | none => .ok []
  | some (.file _) => .error .notADirectoryError
  | some (.dir entries) =>
    entries.foldlM (fun acc e =>
      match e.2 with
      | .dir dsEntries =>
        if e.1 == "README.md" then pure acc
        else do
          let versions ← index_versions_of_dataset e.1 dsEntries
          pure (dictInsert acc e.1 versions)
      | .file _ => pure acc) []

/-- Record built by `index_runs` for one run directory. -/
structure RunInfo where
  config : PyVal
  metrics : PyVal
  system : PyVal
  log_preview : String
  path : String
deriving DecidableEq, Repr

/-- The guarded preview read used for `log.txt` (500 chars) and
`card.md` (1000 chars): absent file → empty string; any exception while
reading (e.g. `open` on a directory) is swallowed by the
`except Exception: pass` clause, leaving the empty string; otherwise the
first `n` characters of the text (Python slicing is character-safe). -/
def read_text_preview (node : Option FSNode) (n : Nat) : String :=
  match node with
  | some (.file fd) => strTake fd.text n
  | _ => ""

/-- Per-run body of `WorkspaceIndexer.index_runs`. -/
def index_run (runName : String) (runEntries : List (String × FSNode)) :
    Except PyExc RunInfo := do
  let config ← load_yaml_file (lookupNode runEntries "config.yaml")
  let metrics ← load_json_file (lookupNode runEntries "metrics.json")
  let system ← load_json_file (lookupNode runEntries "system.json")
  pure ⟨config, metrics, system,
    read_text_preview (lookupNode runEntries "log.txt") 500,
    "runs/" ++ runName⟩

/-- `WorkspaceIndexer.index_runs`: absent `runs/` directory leaves the
mapping empty; directories whose name starts with `"run-"` are
indexed. -/
def index_runs (root : List (String × FSNode)) :
    Except PyExc (List (String × RunInfo)) :=
  match lookupNode root "runs" with
  | none => .ok []
  | some (.file _) => .error .notADirectoryError
  | some (.dir entries) =>
    entries.foldlM (fun acc e =>
      match e.2 with
      | .dir runEntries =>
        if strStartsWith e.1 "run-" then do
          let info ← index_run e.1 runEntries
          pure (dictInsert acc e.1 info)
        else pure acc
      | .file _ => pure acc) []

/-- `pathlib.PurePath.suffix`: the substring from the last dot of the
name, provided that dot is neither the first nor the last character. -/
def pathSuffix (name : String) : String :=
  let cs := name.data
  match ((List.range cs.length).filter (fun i => cs.get? i == some '.')).getLast? with
  | some i => if 0 < i ∧ i < cs.length - 1 then String.mk (cs.drop i) else ""
  | none => ""

/-- The fixed allowlist of recognized model-artifact extensions. -/
def modelExtensions : List String :=
  [".pth", ".pt", ".pkl", ".onnx", ".pb", ".h5", ".keras", ".ckpt"]

/-- Entry of the `model_files` list built by `index_models`. -/
structure ModelFileInfo where
  name : String
  size : Nat
  path : String
deriving DecidableEq, Repr

/-- Record built by `index_models` for one model version. -/
structure ModelVersionInfo where
  metadata : PyVal
  metrics : PyVal
  card_preview : String
  model_files : List ModelFileInfo
  path : String
deriving DecidableEq, Repr

/-- Per-version body of `WorkspaceIndexer.index_models`. -/
def index_model_version (modelName verName : String)
    (verEntries : List (String × FSNode)) : Except PyExc ModelVersionInfo := do
  let metadata ← load_yaml_file (lookupNode verEntries "metadata.yaml")
  let metrics ← load_yaml_file (lookupNode verEntries "metrics.yaml")
  let card := read_text_preview (lookupNode verEntries "card.md") 1000
  let model_files := verEntries.filterMap (fun e =>
    match e.2 with
    | .file fd =>
      if modelExtensions.contains (pathSuffix e.1) then
        some (ModelFileInfo.mk e.1 fd.size
          ("models/" ++ modelName ++ "/" ++ verName ++ "/" ++ e.1))
      else none
    | .dir _ => none)
  pure ⟨metadata, metrics, card, model_files,
    "models/" ++ modelName ++ "/" ++ verName⟩

/-- Version loop of `index_models`. -/
def index_versions_of_model (modelName : String)
    (mEntries : List (String × FSNode)) :
    Except PyExc (List (String × ModelVersionInfo)) :=
  mEntries.foldlM (fun acc e =>
    match e.2 with
    | .dir verEntries =>
      if strStartsWith e.1 "v" then do
        let info ← index_model_version modelName e.1 verEntries
        pure (dictInsert acc e.1 info)
      else pure acc
    | .file _ => pure acc) []

/-- `WorkspaceIndexer.index_models`. -/
def index_models (root : List (String × FSNode)) :
    Except PyExc (List (String × List (String × ModelVersionInfo))) :=
  match lookupNode root "models" with
  | none => .ok []
  | some (.file _) => .error .notADirectoryError
  | some (.dir entries) =>
    entries.foldlM (fun acc e =>
      match e.2 with
      | .dir mEntries =>
        if e.1 == "README.md" then pure acc
        else do
          let versions ← index_versions_of_model e.1 mEntries
          pure (dictInsert acc e.1 versions)
      | .file _ => pure acc) []

/-- A record of the flat lineage mapping built by `build_lineage`.  In
the run record the `dataset` and `model` fields are f-string renderings
(hence `String`), while `experiment` is stored verbatim. -/
inductive LineageRec where
  | runRec (dataset : String) (model : String) (experiment : PyVal)
  | modelRec (run_id : PyVal) (dataset : PyVal)
  | datasetRec (derived_from : PyVal) (source : PyVal)
deriving DecidableEq, Repr

/-- The run-phase loop body of `build_lineage`: render the `dataset`
and `model` fields with f-strings, keep `experiment` verbatim, and
store the record under the run id. -/
def lineageRunStep (acc : List (String × LineageRec)) (e : String × RunInfo) :
    Except PyExc (List (String × LineageRec)) := do
  let config := e.2.config
  let ds ← pyDictGet config "dataset" (.vstr "")
  let md ← pyDictGet config "model" (.vstr "")
  let ex ← pyDictGet config "experiment" (.vstr "")
  pure (dictInsert acc e.1 (LineageRec.runRec (pyStr ds) (pyStr md) ex))

/-- The model-phase inner loop body of `build_lineage`: a version is
recorded under `"{model}/{version}"` only when its metadata declares a
truthy `run_id`. -/
def lineageModelVersionStep (mname : String) (acc : List (String × LineageRec))
    (ver : String × ModelVersionInfo) : Except PyExc (List (String × LineageRec)) := do
  let metadata := ver.2.metadata
  let run_id ← pyDictGet metadata "run_id" (.vstr "")
  if pyFalsy run_id then pure acc
  else do
    let dsv ← pyDictGet metadata "dataset" (.vdict [])
    let dsname ← pyDictGet dsv "name" (.vstr "")
    pure (dictInsert acc (mname ++ "/" ++ ver.1)
      (LineageRec.modelRec run_id dsname))

/-- The model-phase outer loop body of `build_lineage`. -/
def lineageModelStep (acc : List (String × LineageRec))
    (m : String × List (String × ModelVersionInfo)) :
    Except PyExc (List (String × LineageRec)) :=
  m.2.foldlM (lineageModelVersionStep m.1) acc

/-- The dataset-phase inner loop body of `build_lineage`. -/
def lineageDatasetVersionStep (dname : String) (acc : List (String × LineageRec))
    (ver : String × DatasetVersionInfo) : Except PyExc (List (String × LineageRec)) := do
  let metadata := ver.2.metadata
  let df ← pyDictGet metadata "derived_from" (.vdict [])
  let src ← pyDictGet metadata "source" (.vdict [])
  pure (dictInsert acc (dname ++ "/" ++ ver.1)
    (LineageRec.datasetRec df src))

/-- The dataset-phase outer loop body of `build_lineage`. -/
def lineageDatasetStep (acc : List (String × LineageRec))
    (d : String × List (String × DatasetVersionInfo)) :
    Except PyExc (List (String × LineageRec)) :=
  d.2.foldlM (lineageDatasetVersionStep d.1) acc

/-- `WorkspaceIndexer.build_lineage`: one flat dictionary, filled from
runs, then model versions (only those whose metadata declares a truthy
`run_id`), then dataset versions — a later phase overwrites an earlier
record stored under the same id.  The `.get` chains raise
`AttributeError` when applied to a non-dictionary document. -/
def build_lineage (runs : List (String × RunInfo))
    (models : List (String × List (String × ModelVersionInfo)))
    (datasets : List (String × List (String × DatasetVersionInfo))) :
    Except PyExc (List (String × LineageRec)) := do
  let l1 ← runs.foldlM lineageRunStep []
  let l2 ← models.foldlM lineageModelStep l1
  datasets.foldlM lineageDatasetStep l2

/-- The full index `{datasets, runs, models, lineage, metadata:
{indexed_at, project_root}}`.  `indexed_at` is the clock reading taken
in `__init__` and `project_root` the workspace root path. -/
structure Index where
  datasets : List (String × List (String × DatasetVersionInfo))
  runs : List (String × RunInfo)
  models : List (String × List (String × ModelVersionInfo))
  lineage : List (String × LineageRec)
  indexed_at : String
  project_root : String
deriving DecidableEq, Repr

/-- `WorkspaceIndexer.index_all`: index the three categories, then
build lineage, and return the assembled index. -/
def index_all (root : List (String × FSNode)) (now project_root : String) :
    Except PyExc Index := do
  let ds ← index_datasets root
  let rs ← index_runs root
  let ms ← index_models root
  let lin ← build_lineage rs ms ds
  pure ⟨ds, rs, ms, lin, now, project_root⟩

/-- The `sample_counts` dictionary as a structured value. -/
def sampleCountsToPyVal (sc : List (String × Nat)) : PyVal :=
  .vdict (sc.map (fun e => (PyKey.kstr e.1, PyVal.vint e.2)))

/-- One dataset-version record as the dictionary the indexer stores. -/
def datasetVersionToPyVal (i : DatasetVersionInfo) : PyVal :=
  .vdict [(.kstr "metadata", i.metadata),
          (.kstr "sample_counts", sampleCountsToPyVal i.sample_counts),
          (.kstr "path", .vstr i.path)]

/-- One run record as the dictionary the indexer stores. -/
def runInfoToPyVal (i : RunInfo) : PyVal :=
  .vdict [(.kstr "config", i.config),
          (.kstr "metrics", i.metrics),
          (.kstr "system", i.system),
          (.kstr "log_preview", .vstr i.log_preview),
          (.kstr "path", .vstr i.path)]

/-- One `model_files` entry as the dictionary the indexer stores. -/
def modelFileToPyVal (f : ModelFileInfo) : PyVal :=
  .vdict [(.kstr "name", .vstr f.name),
          (.kstr "size", .vint f.size),
          (.kstr "path", .vstr f.path)]

/-- One model-version record as the dictionary the indexer stores. -/
def modelVersionToPyVal (i : ModelVersionInfo) : PyVal :=
  .vdict [(.kstr "metadata", i.metadata),
          (.kstr "metrics", i.metrics),
          (.kstr "card_preview", .vstr i.card_preview),
          (.kstr "model_files", .vlist (i.model_files.map modelFileToPyVal)),
          (.kstr "path", .vstr i.path)]

/-- One lineage record as the dictionary `build_lineage` stores. -/
def lineageRecToPyVal : LineageRec → PyVal
  | .runRec ds md ex =>
    .vdict [(.kstr "type", .vstr "run"), (.kstr "dataset", .vstr ds),
            (.kstr "model", .vstr md), (.kstr "experiment", ex)]
  | .modelRec rid ds =>
    .vdict [(.kstr "type", .vstr "model"), (.kstr "run_id", rid),
            (.kstr "dataset", ds)]
  | .datasetRec df src =>
    .vdict [(.kstr "type", .vstr "dataset"), (.kstr "derived_from", df),
            (.kstr "source", src)]

/-- The complete `self.index` dictionary, the structure handed to
`json.dumps` by the CLI entry point: the three category mappings, the
lineage mapping, and the `metadata` block with `indexed_at` and
`project_root`. -/
def indexToPyVal (i : Index) : PyVal :=
  .vdict
    [(.kstr "datasets", .vdict (i.datasets.map (fun d =>
        (PyKey.kstr d.1, PyVal.vdict (d.2.map (fun v =>
          (PyKey.kstr v.1, datasetVersionToPyVal v.2))))))),
     (.kstr "runs", .vdict (i.runs.map (fun r =>
        (PyKey.kstr r.1, runInfoToPyVal r.2)))),
     (.kstr "models", .vdict (i.models.map (fun m =>
        (PyKey.kstr m.1, PyVal.vdict (m.2.map (fun v =>
          (PyKey.kstr v.1, modelVersionToPyVal v.2))))))),
     (.kstr "lineage", .vdict (i.lineage.map (fun l =>
        (PyKey.kstr l.1, lineageRecToPyVal l.2)))),
     (.kstr "metadata", .vdict
        [(.kstr "indexed_at", .vstr i.indexed_at),
         (.kstr "project_root", .vstr i.project_root)])]

/-- The key transformation applied by `json.dumps`: JSON object keys
are strings, so an integer dictionary key is rendered as its decimal
string. -/
def jsonKey : PyKey → PyKey
  | .kstr s => .kstr s
  | .kint n => .kstr (toString n)

mutual

/-- The composition `json.loads(json.dumps(v))` on values in the image
of the YAML/JSON loaders.  `json.dumps` raises `TypeError` on
`datetime.date`/`datetime.datetime` values — modelled by `none`; it is
total on every other construct.  Integer dictionary keys come back as
their decimal strings; floats are emitted in their shortest round-trip
form (NaN and the infinities included, since `allow_nan` defaults to
true) and re-parsed by `json.loads` to the same float value. -/
def jsonRoundTrip : PyVal → Option PyVal
  | .vnull => some .vnull
  | .vbool b => some (.vbool b)
  | .vint n => some (.vint n)
  | .vstr s => some (.vstr s)
  | .vfloat f => some (.vfloat f)
  | .vdate _ => none
  | .vlist xs => (jsonRoundTripList xs).map PyVal.vlist
  | .vdict es => (jsonRoundTripEntries es).map PyVal.vdict

def jsonRoundTripList : List PyVal → Option (List PyVal)
  | [] => some []
  | x :: xs =>
    match jsonRoundTrip x, jsonRoundTripList xs with
    | some y, some ys => some (y :: ys)
    | _, _ => none

def jsonRoundTripEntries : List (PyKey × PyVal) → Option (List (PyKey × PyVal))
  | [] => some []
  | (k, v) :: es =>
    match jsonRoundTrip v, jsonRoundTripEntries es with
    | some w, some ws => some ((jsonKey k, w) :: ws)
    | _, _ => none

end

mutual

/-- The value survives the JSON round trip unchanged: every dictionary
key anywhere inside is a string, no `datetime.date`/`datetime.datetime`
value occurs (`json.dumps` raises `TypeError` on those), and no NaN
occurs — a NaN is re-parsed to a fresh NaN, and Python `==` on NaN is
irreflexive, so the program's field-for-field comparison already fails
there and structural equality of the model would not reflect it. -/
def jsonFaithful : PyVal → Bool
  | .vnull => true
  | .vbool _ => true
  | .vint _ => true
  | .vstr _ => true
  | .vfloat (.finite _) => true
  | .vfloat (.inf _) => true
  | .vfloat .nan => false
  | .vdate _ => false
  | .vlist xs => jsonFaithfulList xs
  | .vdict es => jsonFaithfulEntries es

def jsonFaithfulList : List PyVal → Bool
  | [] => true
  | x :: xs => jsonFaithful x && jsonFaithfulList xs

def jsonFaithfulEntries : List (PyKey × PyVal) → Bool
  | [] => true
  | (k, v) :: es =>
    (match k with | .kstr _ => true | .kint _ => false) &&
      jsonFaithful v && jsonFaithfulEntries es

end

mutual

theorem jsonRoundTrip_eq_of_jsonFaithful :
    ∀ v : PyVal, jsonFaithful v = true → jsonRoundTrip v = some v
  | .vnull, _ => rfl
  | .vbool _, _ => rfl
  | .vint _, _ => rfl
  | .vstr _, _ => rfl
  | .vfloat (.finite _), _ => rfl
  | .vfloat (.inf _), _ => rfl
  | .vfloat .nan, h => by simp [jsonFaithful] at h
  | .vdate _, h => by simp [jsonFaithful] at h
  | .vlist xs, h => by
    simp only [jsonRoundTrip]
    rw [jsonRoundTripList_eq_of_jsonFaithful xs (by simpa [jsonFaithful] using h)]
    rfl
  | .vdict es, h => by
    simp only [jsonRoundTrip]
    rw [jsonRoundTripEntries_eq_of_jsonFaithful es (by simpa [jsonFaithful] using h)]
    rfl

theorem jsonRoundTripList_eq_of_jsonFaithful :
    ∀ xs : List PyVal, jsonFaithfulList xs = true → jsonRoundTripList xs = some xs
  | [], _ => rfl
  | x :: xs, h => by
    simp only [jsonFaithfulList, Bool.and_eq_true] at h
    simp only [jsonRoundTripList]
    rw [jsonRoundTrip_eq_of_jsonFaithful x h.1, jsonRoundTripList_eq_of_jsonFaithful xs h.2]

theorem jsonRoundTripEntries_eq_of_jsonFaithful :
    ∀ es : List (PyKey × PyVal), jsonFaithfulEntries es = true →
      jsonRoundTripEntries es = some es
  | [], _ => rfl
  | (k, v) :: es, h => by
    simp only [jsonFaithfulEntries, Bool.and_eq_true] at h
    simp only [jsonRoundTripEntries]
    rw [jsonRoundTrip_eq_of_jsonFaithful v h.1.2, jsonRoundTripEntries_eq_of_jsonFaithful es h.2]
    cases k with
    | kstr s => rfl
    | kint n => simp at h

end

/-- The workspace against which `RepositoryDoctor` runs: the project
root path (used in messages), the root directory entries, and the
environment of the external Git LFS subsystem — whether `git lfs
version` succeeds, and the set of relative paths that `git lfs
ls-files` reports as tracked.  Directories matched by `rglob` are not
modelled in the large-file scan: a directory's `st_size` is the block
size, below the 1 MiB threshold. -/
structure Workspace where
  rootStr : String
  root : List (String × FSNode)
  lfsInstalled : Bool
  lfsTracked : List String

/-- Mutable members of `RepositoryDoctor`: strict flag, accumulated
warnings and errors (in append order), and the `validation_results`
mapping (insertion-ordered, like the Python dict). -/
structure DoctorState where
  strict : Bool
  warnings : List String
  errors : List String
  validation_results : List (String × Bool)
deriving DecidableEq, Repr

/-- `RepositoryDoctor.__init__`. -/
def initDoctor (strict : Bool) : DoctorState :=
  ⟨strict, [], [], []⟩

/-- Doctor computations: stateful over `DoctorState`, raising `PyExc`
for an uncaught Python exception. -/
abbrev DocM := StateT DoctorState (Except PyExc)

def addError (msg : String) : DocM Unit :=
  modify fun st => { st with errors := st.errors ++ [msg] }

def addWarning (msg : String) : DocM Unit :=
  modify fun st => { st with warnings := st.warnings ++ [msg] }

def setResult (k : String) (b : Bool) : DocM Unit :=
  modify fun st =>
    { st with validation_results := dictInsert st.validation_results k b }

def splitPathGo : List Char → List Char → List String
  | [], acc => [String.mk acc.reverse]
  | c :: rest, acc =>
    if c = '/' then String.mk acc.reverse :: splitPathGo rest []
    else splitPathGo rest (c :: acc)

/-- Split a relative path on `/` into its components (the model of
`str.split("/")`, character-based). -/
def splitPath (s : String) : List String := splitPathGo s.data []

/-- Resolve a relative path such as `"environments/system.yaml"` inside
the workspace root. -/
def lookupRel (ws : Workspace) (rel : String) : Option FSNode :=
  lookupPath ws.root (splitPath rel)

/-- `RepositoryDoctor._validate_required_directory`. -/
def validate_required_directory (node : Option FSNode)
    (name pathStr : String) : DocM Bool := do
  if !nodeExists node then do
    addError s!"Required directory missing: {name} ({pathStr})"
    pure false
  else if !nodeIsDir node then do
    addError s!"Required path exists but is not a directory: {name} ({pathStr})"
    pure false
  else
    pure true

/-- The fixed required top-level directories of TFC-0001. -/
def requiredDirectories : List (String × String) :=
  [("configs", "Configuration templates"),
   ("data", "Raw data storage"),
   ("datasets", "Versioned datasets"),
   ("docs", "Documentation"),
   ("environments", "Environment configuration"),
   ("experiments", "Experiment definitions"),
   ("models", "Model registry"),
   ("runs", "Execution records"),
   ("scripts", "Utility scripts"),
   ("src", "Source code"),
   ("spaces", "Interactive demos"),
   ("tools", "Project tooling")]

/-- The fixed required files of TFC-0001. -/
def requiredFiles0001 : List (String × String) :=
  [("README.md", "Project documentation"),
   (".gitignore", "Git ignore rules"),
   (".gitattributes", "Git LFS configuration"),
   (".lfsconfig", "Git LFS settings"),
   ("requirements.txt", "Core dependencies"),
   ("requirements-dev.txt", "Development dependencies"),
   ("requirements-gpu.txt", "GPU dependencies"),
   ("environments/system.yaml", "System configuration")]

/-- `RepositoryDoctor.validate_tfc_0001_layout`. -/
def validate_tfc_0001_layout (ws : Workspace) : DocM Bool := do
  let rs := ws.rootStr
  let s1 ← requiredDirectories.foldlM (fun ok d => do
    let r ← validate_required_directory (lookupNode ws.root d.1) d.2 s!"{rs}/{d.1}"
    pure (ok && r)) true
  let s2 ← requiredFiles0001.foldlM (fun ok f => do
    if !nodeExists (lookupRel ws f.1) then do
      addError s!"Required file missing: {f.2} ({rs}/{f.1})"
      pure false
    else
      pure ok) s1
  setResult "tfc_0001" s2
  pure s2

/-- The fixed configuration templates of TFC-0002. -/
def configTemplates : List String :=
  ["configs/datasets/base.yaml",
   "configs/models/base.yaml",
   "configs/training/base.yaml",
   "configs/sweeps/base.yaml"]

/-- Is the value a dictionary (`isinstance(content, dict)`)? -/
def pyIsDict : PyVal → Bool
  | .vdict _ => true
  | _ => false

/-- `RepositoryDoctor.validate_tfc_0002_schemas`: each template must
exist and `yaml.safe_load` to a mapping; a missing template or parse
failure or non-mapping structure is an error.  `open` on a directory
raises past the `except yaml.YAMLError` clause. -/
def validate_tfc_0002_schemas (ws : Workspace) : DocM Bool := do
  let success ← configTemplates.foldlM (fun ok t => do
    match lookupRel ws t with
    | none => do
      addError s!"Missing configuration template: {t}"
      pure false
    | some (.dir _) => liftM (Except.error PyExc.isADirectoryError : Except PyExc Bool)
    | some (.file fd) =>
      match fd.yamlParse with
      | .error e => do
        addError s!"Invalid YAML in {t}: {e}"
        pure false
      | .ok content =>
        if !pyIsDict content then do
          addError s!"Invalid YAML structure in {t}"
          pure false
        else
          pure ok) true
  setResult "tfc_0002" success
  pure success

/-- One iteration of a required-field loop: `if field not in doc` (this
membership test raises `TypeError` on a `None` or otherwise
non-container document), appending an error for a missing field. -/
def checkRequiredField (doc : PyVal) (mkMsg : String → String)
    (ok : Bool) (field : String) : DocM Bool := do
  let present ← liftM (pyContains doc field)
  if !present then do
    addError (mkMsg field)
    pure false
  else
    pure ok

/-- The version-format check shared by the dataset and model
validators: `metadata.get("version", "").startswith("v")` (raising
`AttributeError` on a non-dictionary document or non-string version);
on failure the error message renders `metadata.get("version")`
(default `None`). -/
def checkVersionFormat (doc : PyVal) (mkMsg : String → String)
    (ok : Bool) : DocM Bool := do
  let v ← liftM (pyDictGet doc "version" (.vstr ""))
  let sw ← liftM (pyStartswith v "v")
  if !sw then do
    let v2 ← liftM (pyDictGet doc "version" .vnull)
    addError (mkMsg (pyStr v2))
    pure false
  else
    pure ok

/-- One split check of `_validate_dataset_version`: a missing split
path (file or directory both count as present) appends a warning. -/
def checkSplitPresent (verEntries : List (String × FSNode))
    (verName split : String) : DocM Unit :=
  if nodeExists (lookupNode verEntries split) then pure ()
  else addWarning s!"Dataset {verName} missing {split} split"

/-- The required metadata fields of a dataset version. -/
def datasetRequiredFields : List String :=
  ["name", "version", "created_at", "description", "source", "hash"]

/-- `RepositoryDoctor._validate_dataset_version` for the version
directory named `verName` at path `pathStr`: warn on each absent split;
error on missing `metadata.yaml`; on a parse failure retain the parser
diagnostic as an error; otherwise check required fields (a membership
test on the raw document — raising `TypeError` when it parsed to
`None`) and the version-tag convention (raising `AttributeError` on a
non-mapping document or non-string version). -/
def validate_dataset_version (pathStr verName : String)
    (verEntries : List (String × FSNode)) : DocM Bool := do
  checkSplitPresent verEntries verName "train"
  checkSplitPresent verEntries verName "val"
  checkSplitPresent verEntries verName "test"
  match lookupNode verEntries "metadata.yaml" with
  | none => do
    addError s!"Dataset {verName} missing metadata.yaml"
    pure false
  | some (.dir _) => liftM (Except.error PyExc.isADirectoryError : Except PyExc Bool)
  | some (.file fd) =>
    match fd.yamlParse with
    | .error e => do
      addError s!"Invalid YAML in dataset metadata {pathStr}: {e}"
      pure false
    | .ok metadata => do
      let s1 ← datasetRequiredFields.foldlM
        (checkRequiredField metadata
          (fun f => s!"Dataset {verName} metadata missing field: {f}")) true
      checkVersionFormat metadata
        (fun v => s!"Dataset {verName} has invalid version format: {v}") s1

/-- `RepositoryDoctor.validate_tfc_0004_datasets`: absent `datasets/`
directory returns success immediately — without recording a
`validation_results` entry; otherwise every subdirectory of every
non-`README.md` dataset directory is validated (no version-tag filter
here, unlike the indexer). -/
def validate_tfc_0004_datasets (ws : Workspace) : DocM Bool := do
  match lookupNode ws.root "datasets" with
  | none => pure true
  | some (.file _) => liftM (Except.error PyExc.notADirectoryError : Except PyExc Bool)
  | some (.dir entries) => do
    let rs := ws.rootStr
    let success ← entries.foldlM (fun ok e =>
      match e.2 with
      | .dir dsEntries =>
        if e.1 == "README.md" then pure ok
        else do
          let dn := e.1
          dsEntries.foldlM (fun ok2 v =>
            match v.2 with
            | .dir verEntries => do
              let r ← validate_dataset_version
                s!"{rs}/datasets/{dn}/{v.1}" v.1 verEntries
              pure (ok2 && r)
            | .file _ => pure ok2) ok
      | .file _ => pure ok) true
    setResult "tfc_0004" success
    pure success

/-- The supplementary files of a model version, warned about when
absent. -/
def modelRequiredFiles : List (String × String) :=
  [("metadata.yaml", "Model metadata"),
   ("metrics.yaml", "Model metrics"),
   ("card.md", "Model card")]

/-- The required metadata fields of a model version. -/
def modelRequiredFields : List String :=
  ["name", "version", "created_at", "run_id", "dataset", "code", "framework"]

/-- The artifact scan of `_validate_model_version`: enumerate files
whose extension lies in the model allowlist and warn when there are
none. -/
def checkModelArtifacts (verName : String)
    (verEntries : List (String × FSNode)) : DocM Unit :=
  let model_files := verEntries.filterMap (fun e =>
    match e.2 with
    | .file fd =>
      if modelExtensions.contains (pathSuffix e.1) then some (e.1, fd) else none
    | .dir _ => none)
  if model_files.isEmpty then
    addWarning s!"Model {verName} has no recognizable model artifact"
  else pure ()

/-- `RepositoryDoctor._validate_model_version` for the version
directory named `verName` at path `pathStr`: warn on each absent
supplementary file and when no recognized model artifact is present;
when `metadata.yaml` exists, check required fields and the version-tag
convention with the same raising behaviour as the dataset validator. -/
def validate_model_version (pathStr verName : String)
    (verEntries : List (String × FSNode)) : DocM Bool := do
  modelRequiredFiles.forM (fun f =>
    if nodeExists (lookupNode verEntries f.1) then pure ()
    else addWarning s!"Model {verName} missing {f.2} ({f.1})")
  checkModelArtifacts verName verEntries
  match lookupNode verEntries "metadata.yaml" with
  | none => pure true
  | some (.dir _) => liftM (Except.error PyExc.isADirectoryError : Except PyExc Bool)
  | some (.file fd) =>
    match fd.yamlParse with
    | .error e => do
      addError s!"Invalid YAML in model metadata {pathStr}: {e}"
      pure false
    | .ok metadata => do
      let s1 ← modelRequiredFields.foldlM
        (checkRequiredField metadata
          (fun f => s!"Model {verName} metadata missing field: {f}")) true
      checkVersionFormat metadata
        (fun v => s!"Model {verName} has invalid version format: {v}") s1

/-- `RepositoryDoctor.validate_tfc_0005_models`: absent `models/`
directory returns success immediately — without recording a
`validation_results` entry. -/
def validate_tfc_0005_models (ws : Workspace) : DocM Bool := do
  match lookupNode ws.root "models" with
  | none => pure true
  | some (.file _) => liftM (Except.error PyExc.notADirectoryError : Except PyExc Bool)
  | some (.dir entries) => do
    let rs := ws.rootStr
    let success ← entries.foldlM (fun ok e =>
      match e.2 with
      | .dir mEntries =>
        if e.1 == "README.md" then pure ok
        else do
          let mn := e.1
          mEntries.foldlM (fun ok2 v =>
            match v.2 with
            | .dir verEntries => do
              let r ← validate_model_version
                s!"{rs}/models/{mn}/{v.1}" v.1 verEntries
              pure (ok2 && r)
            | .file _ => pure ok2) ok
      | .file _ => pure ok) true
    setResult "tfc_0005" success
    pure success

/-- The required artifact files of a run directory, errors when
absent. -/
def runRequiredFiles : List (String × String) :=
  [("config.yaml", "Run configuration"),
   ("metrics.json", "Run metrics"),
   ("system.json", "System metadata"),
   ("log.txt", "Run log")]

/-- The required config fields of a run. -/
def runRequiredFields : List String :=
  ["run_id", "experiment", "model", "dataset"]

/-- `RepositoryDoctor._validate_run_directory` for the run directory
named `runName` at path `pathStr`. -/
def validate_run_directory (pathStr runName : String)
    (runEntries : List (String × FSNode)) : DocM Bool := do
  let s1 ← runRequiredFiles.foldlM (fun ok f =>
    if !nodeExists (lookupNode runEntries f.1) then do
      addError s!"Run {runName} missing {f.2} ({f.1})"
      pure false
    else pure ok) true
  let s2 ← (match lookupNode runEntries "config.yaml" with
    | none => pure s1
    | some (.dir _) => liftM (Except.error PyExc.isADirectoryError : Except PyExc Bool)
    | some (.file fd) =>
      match fd.yamlParse with
      | .error e => do
        addError s!"Invalid YAML in run config {pathStr}: {e}"
        pure false
      | .ok config =>
        runRequiredFields.foldlM
          (checkRequiredField config
            (fun f => s!"Run {runName} config missing field: {f}")) s1)
  match lookupNode runEntries "metrics.json" with
  | none => pure s2
  | some (.dir _) => liftM (Except.error PyExc.isADirectoryError : Except PyExc Bool)
  | some (.file fd) =>
    match fd.jsonParse with
    | .error e => do
      addError s!"Invalid JSON in run metrics {pathStr}: {e}"
      pure false
    | .ok metrics =>
      if !pyIsDict metrics then do
        addError s!"Run {runName} metrics.json is not a valid JSON object"
        pure false
      else pure s2

/-- `RepositoryDoctor.validate_tfc_0003_runs`: absent `runs/` directory
returns success immediately — without recording a `validation_results`
entry. -/
def validate_tfc_0003_runs (ws : Workspace) : DocM Bool := do
  match lookupNode ws.root "runs" with
  | none => pure true
  | some (.file _) => liftM (Except.error PyExc.notADirectoryError : Except PyExc Bool)
  | some (.dir entries) => do
    let rs := ws.rootStr
    let success ← entries.foldlM (fun ok e =>
      match e.2 with
      | .dir runEntries =>
        if strStartsWith e.1 "run-" then do
          let r ← validate_run_directory s!"{rs}/runs/{e.1}" e.1 runEntries
          pure (ok && r)
        else pure ok
      | .file _ => pure ok) true
    setResult "tfc_0003" success
    pure success

/-- The extension allowlist of the large-file scan. -/
def largeExtensions : List String :=
  [".pth", ".pt", ".pkl", ".h5", ".hdf5", ".onnx", ".pb",
   ".png", ".jpg", ".jpeg", ".csv", ".parquet"]

mutual

/-- All files under a node, as (relative path, name, data), in
depth-first entry order — the model of `Path.rglob` enumeration. -/
def collectFilesNode : String → String → FSNode → List (String × String × FileData)
  | p, n, .file fd => [(p, n, fd)]
  | p, _, .dir es => collectFilesEntries p es

def collectFilesEntries : String → List (String × FSNode) → List (String × String × FileData)
  | _, [] => []
  | p, (n, node) :: rest =>
    collectFilesNode (if p == "" then n else p ++ "/" ++ n) n node ++
      collectFilesEntries p rest

end

/-- The `.gitattributes` content check of `validate_git_lfs_setup`: a
file without the substring `filter=lfs` draws a warning. -/
def warnIfNoLfsFilter (fd : FileData) : DocM Unit :=
  if !strContainsSub fd.text "filter=lfs" then
    addWarning "No LFS filters found in .gitattributes"
  else pure ()

/-- `RepositoryDoctor.validate_git_lfs_setup`: an absent Git LFS
subsystem is an error that ends the rule; `.gitattributes` must exist
(error) and should mention `filter=lfs` (warning); every file larger
than 1 MiB whose name matches the extension allowlist and is not
reported as tracked by `git lfs ls-files` yields a warning.  The rule
never records a `validation_results` entry. -/
def validate_git_lfs_setup (ws : Workspace) : DocM Bool := do
  if !ws.lfsInstalled then do
    addError "Git LFS is not installed or not configured"
    pure false
  else do
    let success ← (match lookupNode ws.root ".gitattributes" with
      | some (.file fd) => do
        warnIfNoLfsFilter fd
        pure true
      | some (.dir _) => liftM (Except.error PyExc.isADirectoryError : Except PyExc Bool)
      | none => do
        addError "Missing .gitattributes file for LFS configuration"
        pure false)
    largeExtensions.forM (fun ext =>
      ((collectFilesEntries "" ws.root).filter
          (fun f => strEndsWith f.2.1 ext)).forM (fun f =>
        if 1024 * 1024 < f.2.2.size && !ws.lfsTracked.contains f.1 then
          addWarning s!"Large file not tracked by LFS: {f.1}"
        else pure ()))
    pure success

/-- The no-target branch of `validate_all_tfc`: run all five TFC rules
and the Git LFS rule in order, AND-ing their results into `success`. -/
def validate_all_rules (ws : Workspace) : DocM Bool := do
  let r1 ← validate_tfc_0001_layout ws
  let r2 ← validate_tfc_0002_schemas ws
  let r3 ← validate_tfc_0003_runs ws
  let r4 ← validate_tfc_0004_datasets ws
  let r5 ← validate_tfc_0005_models ws
  let r6 ← validate_git_lfs_setup ws
  pure (true && r1 && r2 && r3 && r4 && r5 && r6)

/-- `RepositoryDoctor.validate_all_tfc`: with a truthy target (the
guard is `if target_tfc:`, so both `None` and `0` fall to the run-all
branch — `--tfc 0` behaves like no target at all) look the id up in the
five-entry rule registry and AND the chosen rule's result into
`success`, or record an unknown-id error; otherwise run every rule. -/
def validate_all_tfc (ws : Workspace) (target : Option Int) : DocM Bool := do
  match target with
  | none => validate_all_rules ws
  | some t =>
    if t == 0 then validate_all_rules ws
    else if t == 1 then do let r ← validate_tfc_0001_layout ws; pure (true && r)
    else if t == 2 then do let r ← validate_tfc_0002_schemas ws; pure (true && r)
    else if t == 3 then do let r ← validate_tfc_0003_runs ws; pure (true && r)
    else if t == 4 then do let r ← validate_tfc_0004_datasets ws; pure (true && r)
    else if t == 5 then do let r ← validate_tfc_0005_models ws; pure (true && r)
    else do
      addError s!"Unknown TFC number: {t}"
      pure false

/-- `RepositoryDoctor.exit_with_code`: `0` on success; otherwise `1`
when warnings were accumulated and strict mode is off, else `2`. -/
def exit_with_code (st : DoctorState) (success : Bool) : Nat :=
  if success then 0
  else if !st.warnings.isEmpty && !st.strict then 1
  else 2

/-- The JSON report of `RepositoryDoctor.format_output`:
`{success, errors, warnings, validation_results}`. -/
def format_output_json (st : DoctorState) (success : Bool) : PyVal :=
  .vdict
    [(.kstr "success", .vbool success),
     (.kstr "errors", .vlist (st.errors.map PyVal.vstr)),
     (.kstr "warnings", .vlist (st.warnings.map PyVal.vstr)),
     (.kstr "validation_results", .vdict (st.validation_results.map (fun e =>
        (PyKey.kstr e.1, PyVal.vbool e.2))))]

instance {e a : Type} [DecidableEq e] [DecidableEq a] : DecidableEq (Except e a) :=
  fun x y =>
    match x, y with
    | .ok u, .ok v =>
      match decEq u v with
      | isTrue h => isTrue (h ▸ rfl)
      | isFalse h => isFalse (fun q => h (Except.ok.inj q))
    | .error u, .error v =>
      match decEq u v with
      | isTrue h => isTrue (h ▸ rfl)
      | isFalse h => isFalse (fun q => h (Except.error.inj q))
    | .ok _, .error _ => isFalse nofun
    | .error _, .ok _ => isFalse nofun

/-- A successful `index_all` decomposes into successes of its four
phases, with the clock reading and root recorded verbatim. -/
theorem index_all_ok_parts {root : List (String × FSNode)} {now pr : String} {i : Index}
    (h : index_all root now pr = .ok i) :
    index_datasets root = .ok i.datasets ∧ index_runs root = .ok i.runs ∧
    index_models root = .ok i.models ∧
    build_lineage i.runs i.models i.datasets = .ok i.lineage ∧
    i.indexed_at = now ∧ i.project_root = pr := by
  unfold index_all at h
  cases hds : index_datasets root with
  | error e => rw [hds] at h; simp [Bind.bind, Except.bind] at h
  | ok ds =>
    rw [hds] at h
    simp only [Bind.bind, Except.bind] at h
    cases hrs : index_runs root with
    | error e => rw [hrs] at h; simp at h
    | ok rs =>
      rw [hrs] at h
      simp only at h
      cases hms : index_models root with
      | error e => rw [hms] at h; simp at h
      | ok ms =>
        rw [hms] at h
        simp only at h
        cases hl : build_lineage rs ms ds with
        | error e => rw [hl] at h; simp at h
        | ok lin =>
          rw [hl] at h
          simp only [Pure.pure, Except.pure, Except.ok.injEq] at h
          cases h
          exact ⟨rfl, rfl, rfl, hl, rfl, rfl⟩

/-- C6 — Category emptiness: for every workspace in which a category
directory (`datasets`, `runs` or `models`) is absent, the built index
still contains that category key, mapped to an empty mapping — never
an error and never an absent key; callers of `index_all` always find
all three of `datasets`, `runs` and `models` present (here: present as
keys of the serialized index dictionary). -/
theorem absent_category_yields_empty_mapping (root : List (String × FSNode)) (now pr : String) :
    (lookupNode root "datasets" = none → index_datasets root = .ok []) ∧
    (lookupNode root "runs" = none → index_runs root = .ok []) ∧
    (lookupNode root "models" = none → index_models root = .ok []) ∧
    (∀ i, index_all root now pr = .ok i →
      pyContains (indexToPyVal i) "datasets" = .ok true ∧
      pyContains (indexToPyVal i) "runs" = .ok true ∧
      pyContains (indexToPyVal i) "models" = .ok true ∧
      (lookupNode root "datasets" = none → i.datasets = []) ∧
      (lookupNode root "runs" = none → i.runs = []) ∧
      (lookupNode root "models" = none → i.models = [])) := by
  refine ⟨?_, ?_, ?_, ?_⟩
  · intro h; unfold index_datasets; rw [h]
  · intro h; unfold index_runs; rw [h]
  · intro h; unfold index_models; rw [h]
  · intro i hi
    obtain ⟨hds, hrs, hms, _, _, _⟩ := index_all_ok_parts hi
    refine ⟨rfl, rfl, rfl, ?_, ?_, ?_⟩
    · intro h
      have h2 : index_datasets root = .ok [] := by unfold index_datasets; rw [h]
      rw [h2] at hds; exact (Except.ok.inj hds).symm
    · intro h
      have h2 : index_runs root = .ok [] := by unfold index_runs; rw [h]
      rw [h2] at hrs; exact (Except.ok.inj hrs).symm
    · intro h
      have h2 : index_models root = .ok [] := by unfold index_models; rw [h]
      rw [h2] at hms; exact (Except.ok.inj hms).symm

/-- Witness for C6: the entirely empty workspace. -/
theorem absent_category_yields_empty_mapping_witness :
    index_datasets ([] : List (String × FSNode)) = .ok [] ∧
    pyContains (indexToPyVal ⟨[], [], [], [], "T", "/p"⟩) "models" = .ok true ∧
    (⟨[], [], [], [], "T", "/p"⟩ : Index).runs = [] :=
  ⟨(absent_category_yields_empty_mapping [] "T" "/p").1 rfl,
   ((absent_category_yields_empty_mapping [] "T" "/p").2.2.2 ⟨[], [], [], [], "T", "/p"⟩ rfl).2.2.1,
   ((absent_category_yields_empty_mapping [] "T" "/p").2.2.2 ⟨[], [], [], [], "T", "/p"⟩ rfl).2.2.2.2.1 rfl⟩

/-- The index with its `indexed_at` clock reading blanked out, for
comparing two invocations made at different times. -/
def stripIndexTime (i : Index) : Index := { i with indexed_at := "" }

/-- Counterexample to C5 as stated: the pipeline run twice against the
same (empty) unchanged tree, once at clock reading
`2024-01-01T00:00:00` and once one second later, produces outputs that
are not structurally identical — the `metadata` block records the
invocation time. -/
theorem index_all_determinism_counterexample :
    index_all [] "2024-01-01T00:00:00" "/p" ≠ index_all [] "2024-01-01T00:00:01" "/p" := by
  decide

/-- C5 (amended) — Determinism of the full pipeline up to the clock:
running `index_all` twice against an unchanged tree yields outputs
that are structurally identical in every index and lineage entry and
in `project_root`; the `metadata` block's `indexed_at` field records
each invocation's own clock reading, so full field-for-field identity
additionally requires the two clock readings to coincide. -/
theorem index_all_deterministic (root : List (String × FSNode)) (pr n1 n2 : String) :
    (index_all root n1 pr).map stripIndexTime = (index_all root n2 pr).map stripIndexTime ∧
    (∀ i, index_all root n1 pr = .ok i → i.indexed_at = n1) := by
  constructor
  · unfold index_all
    cases index_datasets root with
    | error e => simp [Bind.bind, Except.bind, Except.map]
    | ok ds =>
      simp only [Bind.bind, Except.bind]
      cases index_runs root with
      | error e => simp [Except.map]
      | ok rs =>
        simp only
        cases index_models root with
        | error e => simp [Except.map]
        | ok ms =>
          simp only
          cases build_lineage rs ms ds with
          | error e => simp [Except.map]
          | ok lin => simp [Pure.pure, Except.pure, Except.map, stripIndexTime]
  · intro i hi
    exact (index_all_ok_parts hi).2.2.2.2.1

/-- Witness for C5 (amended): the empty tree indexed at clock reading
`"a"`. -/
theorem index_all_deterministic_witness :
    (⟨[], [], [], [], "a", "/p"⟩ : Index).indexed_at = "a" :=
  (index_all_deterministic [] "/p" "a" "b").2 ⟨[], [], [], [], "a", "/p"⟩ rfl

/-- The sample count the specification prescribes for a split: the
entry count when the split directory exists, no entry otherwise
(spec-side definition, for comparison with the indexer). -/
def expectedSampleCount (verEntries : List (String × FSNode)) (s : String) : Option Nat :=
  match lookupNode verEntries s with
  | some (.dir es) => some es.length
  | _ => none

/-- When the split path is not a regular file, the split-counting step
returns exactly the spec-side count. -/
theorem splitSampleCount_ok (verEntries : List (String × FSNode)) (s : String)
    (h : nodeIsFile (lookupNode verEntries s) = false) :
    splitSampleCount verEntries s = .ok (expectedSampleCount verEntries s) := by
  unfold splitSampleCount expectedSampleCount
  cases hl : lookupNode verEntries s with
  | none => rfl
  | some node =>
    cases node with
    | dir es => rfl
    | file fd => rw [hl] at h; simp [nodeIsFile] at h

/-- A dataset version directory whose `train` split path exists as a
regular file rather than a directory. -/
def splitFileVersionDir : List (String × FSNode) :=
  [("train", .file ⟨.error "y", .error "j", "", 1⟩)]

/-- A workspace containing `datasets/iris/v1` with that version
directory. -/
def splitFileWorkspace : List (String × FSNode) :=
  [("datasets", .dir [("iris", .dir [("v1", .dir splitFileVersionDir)])])]

/-- Counterexample to C7 as stated: in `datasets/iris/v1` the `train`
split path exists as a regular file, so no `train` split directory
exists and the claim requires `sample_counts` simply to lack the key;
instead the split check passes (`exists()` is true for a file) and
`iterdir` raises `NotADirectoryError`, so `index_datasets` produces no
mapping at all. -/
theorem dataset_split_counts_counterexample :
    nodeIsDir (lookupNode splitFileVersionDir "train") = false ∧
    index_datasets splitFileWorkspace = .error .notADirectoryError :=
  ⟨rfl, by decide⟩

/-- C7 (amended) — Dataset split counting in `index_datasets`: for
every dataset version directory whose `metadata.yaml` is not a
directory and whose existing split paths are all directories, and for
every split name in the fixed set `{train, val, test}`, the
`sample_counts` mapping has a key for that split exactly when the
split directory exists, and its value is the number of entries inside
that directory; absent splits produce no key (not zero).  (A split
path that exists as a regular file instead makes the scan raise
`NotADirectoryError` — see the counterexample.) -/
theorem dataset_split_counts (dsName verName : String)
    (verEntries : List (String × FSNode))
    (hmeta : nodeIsDir (lookupNode verEntries "metadata.yaml") = false)
    (hsplits : ∀ s, s ∈ (["train", "val", "test"] : List String) →
      nodeIsFile (lookupNode verEntries s) = false) :
    ∃ info, index_dataset_version dsName verName verEntries = .ok info ∧
      ∀ s, s ∈ (["train", "val", "test"] : List String) →
        (info.sample_counts.find? (fun e => e.1 == s)).map (fun e => e.2) =
          expectedSampleCount verEntries s := by
  obtain ⟨m, hm⟩ : ∃ m, load_yaml_file (lookupNode verEntries "metadata.yaml") = .ok m := by
    cases h : lookupNode verEntries "metadata.yaml" with
    | none => exact ⟨_, rfl⟩
    | some node =>
      cases node with
      | file fd => exact ⟨_, rfl⟩
      | dir es => rw [h] at hmeta; simp [nodeIsDir] at hmeta
  have h1 := splitSampleCount_ok verEntries "train" (hsplits "train" (by simp))
  have h2 := splitSampleCount_ok verEntries "val" (hsplits "val" (by simp))
  have h3 := splitSampleCount_ok verEntries "test" (hsplits "test" (by simp))
  refine ⟨⟨m, [("train", expectedSampleCount verEntries "train"),
               ("val", expectedSampleCount verEntries "val"),
               ("test", expectedSampleCount verEntries "test")].filterMap
                 (fun e => e.2.map (fun n => (e.1, n))),
          "datasets/" ++ dsName ++ "/" ++ verName⟩, ?_, ?_⟩
  · unfold index_dataset_version
    rw [hm]
    simp only [Bind.bind, Except.bind]
    rw [h1]
    simp only
    rw [h2]
    simp only
    rw [h3]
    rfl
  · intro s hs
    fin_cases hs
    · cases h1c : expectedSampleCount verEntries "train" with
      | none =>
        cases h2c : expectedSampleCount verEntries "val" with
        | none =>
          cases h3c : expectedSampleCount verEntries "test" with
          | none => simp [h1c, h2c, h3c]
          | some c => simp [h1c, h2c, h3c]
        | some b =>
          cases h3c : expectedSampleCount verEntries "test" with
          | none => simp [h1c, h2c, h3c]
          | some c => simp [h1c, h2c, h3c]
      | some a => simp [h1c]
    · cases h1c : expectedSampleCount verEntries "train" with
      | none =>
        cases h2c : expectedSampleCount verEntries "val" with
        | none =>
          cases h3c : expectedSampleCount verEntries "test" with
          | none => simp [h1c, h2c, h3c]
          | some c => simp [h1c, h2c, h3c]
        | some b => simp [h1c, h2c]
      | some a =>
        cases h2c : expectedSampleCount verEntries "val" with
        | none =>
          cases h3c : expectedSampleCount verEntries "test" with
          | none => simp [h1c, h2c, h3c]
          | some c => simp [h1c, h2c, h3c]
        | some b => simp [h1c, h2c]
    · cases h1c : expectedSampleCount verEntries "train" with
      | none =>
        cases h2c : expectedSampleCount verEntries "val" with
        | none =>
          cases h3c : expectedSampleCount verEntries "test" with
          | none => simp [h1c, h2c, h3c]
          | some c => simp [h1c, h2c, h3c]
        | some b =>
          cases h3c : expectedSampleCount verEntries "test" with
          | none => simp [h1c, h2c, h3c]
          | some c => simp [h1c, h2c, h3c]
      | some a =>
        cases h2c : expectedSampleCount verEntries "val" with
        | none =>
          cases h3c : expectedSampleCount verEntries "test" with
          | none => simp [h1c, h2c, h3c]
          | some c => simp [h1c, h2c, h3c]
        | some b =>
          cases h3c : expectedSampleCount verEntries "test" with
          | none => simp [h1c, h2c, h3c]
          | some c => simp [h1c, h2c, h3c]

/-- The `datasets/iris/v1` version directory of the specification's
scenario: full metadata, a `train/` split with two files, a `val/`
split with one file, and no `test/` split. -/
def irisV1Entries : List (String × FSNode) :=
  [("metadata.yaml", .file ⟨.ok (.vdict
      [(.kstr "name", .vstr "iris"), (.kstr "version", .vstr "v1"),
       (.kstr "description", .vstr "toy"), (.kstr "source", .vstr "sklearn"),
       (.kstr "hash", .vstr "abc")]), .error "json", "", 64⟩),
   ("train", .dir
      [("a.csv", .file ⟨.error "yaml", .error "json", "", 5⟩),
       ("b.csv", .file ⟨.error "yaml", .error "json", "", 5⟩)]),
   ("val", .dir
      [("c.csv", .file ⟨.error "yaml", .error "json", "", 5⟩)])]

/-- Witness for C7 (amended): the `iris/v1` scenario — the computed
`sample_counts` is `{train: 2, val: 1}` with no `test` key. -/
theorem dataset_split_counts_witness :
    (∃ info, index_dataset_version "iris" "v1" irisV1Entries = .ok info ∧
      ∀ s, s ∈ (["train", "val", "test"] : List String) →
        (info.sample_counts.find? (fun e => e.1 == s)).map (fun e => e.2) =
          expectedSampleCount irisV1Entries s) ∧
    (index_dataset_version "iris" "v1" irisV1Entries).map
      DatasetVersionInfo.sample_counts = .ok [("train", 2), ("val", 1)] :=
  ⟨dataset_split_counts "iris" "v1" irisV1Entries (by decide) (by decide), by rfl⟩

/-- A workspace whose dataset metadata document carries an integer
mapping key (YAML permits this; JSON object keys cannot). -/
def intKeyWorkspace : List (String × FSNode) :=
  [("datasets", .dir [("iris", .dir [("v1", .dir
      [("metadata.yaml", .file ⟨.ok (.vdict [(.kint 1, .vstr "x")]), .error "json", "", 8⟩)])])])]

/-- The index `index_all` builds over that workspace. -/
def intKeyIndex : Index :=
  ⟨[("iris", [("v1", ⟨.vdict [(.kint 1, .vstr "x")], [], "datasets/iris/v1"⟩)])],
   [], [],
   [("iris/v1", .datasetRec (.vdict []) (.vdict []))],
   "T", "/p"⟩

/-- A workspace whose dataset metadata contains an unquoted YAML
timestamp: `yaml.safe_load` parses `created_at: 2024-01-01` to a
`datetime.date` value. -/
def dateWorkspace : List (String × FSNode) :=
  [("datasets", .dir [("iris", .dir [("v1", .dir
      [("metadata.yaml", .file
        ⟨.ok (.vdict [(.kstr "created_at", .vdate "2024-01-01")]), .error "json", "", 23⟩)])])])]

/-- The index `index_all` builds over that workspace. -/
def dateIndex : Index :=
  ⟨[("iris", [("v1",
      ⟨.vdict [(.kstr "created_at", .vdate "2024-01-01")], [], "datasets/iris/v1"⟩)])],
   [], [],
   [("iris/v1", .datasetRec (.vdict []) (.vdict []))],
   "T", "/p"⟩

/-- Counterexample to C9 as stated, in both of its parts.  Serializing
does not always succeed: over `dateWorkspace` the indexed metadata
holds a `datetime.date` (from the unquoted timestamp
`created_at: 2024-01-01`), and `json.dumps` raises `TypeError` on it.
And when serializing does succeed the result need not parse back
equal: over `intKeyWorkspace` the metadata document has the integer
mapping key `1`, which `json.dumps` renders as the decimal string
`"1"`, so the parsed-back structure differs field-for-field from the
original index. -/
theorem index_roundtrip_counterexample :
    (index_all dateWorkspace "T" "/p" = .ok dateIndex ∧
      jsonRoundTrip (indexToPyVal dateIndex) = none) ∧
    (index_all intKeyWorkspace "T" "/p" = .ok intKeyIndex ∧
      jsonRoundTrip (indexToPyVal intKeyIndex) ≠ some (indexToPyVal intKeyIndex)) :=
  ⟨⟨by decide, by decide⟩, ⟨by decide, by decide⟩⟩

/-- JSON-faithfulness of the documents stored in one lineage record. -/
def lineageRecFaithful : LineageRec → Bool
  | .runRec _ _ ex => jsonFaithful ex
  | .modelRec rid ds => jsonFaithful rid && jsonFaithful ds
  | .datasetRec df src => jsonFaithful df && jsonFaithful src

/-- Every loaded document stored anywhere in the index is
JSON-faithful: only string mapping keys, no date/datetime values, no
NaN. -/
def indexDocsJsonFaithful (i : Index) : Bool :=
  i.datasets.all (fun d => d.2.all (fun v => jsonFaithful v.2.metadata)) &&
  i.runs.all (fun r => jsonFaithful r.2.config && jsonFaithful r.2.metrics &&
    jsonFaithful r.2.system) &&
  i.models.all (fun m => m.2.all (fun v => jsonFaithful v.2.metadata &&
    jsonFaithful v.2.metrics)) &&
  i.lineage.all (fun l => lineageRecFaithful l.2)

theorem jsonFaithful_vdict (es : List (PyKey × PyVal)) :
    jsonFaithful (.vdict es) = jsonFaithfulEntries es := rfl

theorem jsonFaithful_vstr (s : String) : jsonFaithful (.vstr s) = true := rfl

theorem jsonFaithful_vint (n : Int) : jsonFaithful (.vint n) = true := rfl

theorem jsonFaithful_vlist (xs : List PyVal) :
    jsonFaithful (.vlist xs) = jsonFaithfulList xs := rfl

theorem jsonFaithfulEntries_nil : jsonFaithfulEntries [] = true := rfl

theorem jsonFaithfulEntries_cons_kstr (k : String) (v : PyVal) (es : List (PyKey × PyVal)) :
    jsonFaithfulEntries ((PyKey.kstr k, v) :: es) =
      (jsonFaithful v && jsonFaithfulEntries es) := by
  simp [jsonFaithfulEntries]

theorem jsonFaithfulList_nil : jsonFaithfulList [] = true := rfl

theorem jsonFaithfulList_cons (x : PyVal) (xs : List PyVal) :
    jsonFaithfulList (x :: xs) = (jsonFaithful x && jsonFaithfulList xs) := rfl

theorem jsonFaithfulEntries_map {α : Type} (l : List α) (key : α → String) (f : α → PyVal)
    (h : ∀ a, a ∈ l → jsonFaithful (f a) = true) :
    jsonFaithfulEntries (l.map (fun a => (PyKey.kstr (key a), f a))) = true := by
  induction l with
  | nil => rfl
  | cons x xs ih =>
    have hx := h x (by simp)
    have hxs := ih (fun a ha => h a (by simp [ha]))
    simp only [List.map_cons, jsonFaithfulEntries_cons_kstr, hx, hxs, Bool.and_self]

theorem jsonFaithfulList_map {α : Type} (l : List α) (f : α → PyVal)
    (h : ∀ a, a ∈ l → jsonFaithful (f a) = true) :
    jsonFaithfulList (l.map f) = true := by
  induction l with
  | nil => rfl
  | cons x xs ih =>
    have hx := h x (by simp)
    have hxs := ih (fun a ha => h a (by simp [ha]))
    simp only [List.map_cons, jsonFaithfulList_cons, hx, hxs, Bool.and_self]

theorem sampleCounts_faithful (sc : List (String × Nat)) :
    jsonFaithful (sampleCountsToPyVal sc) = true := by
  rw [sampleCountsToPyVal, jsonFaithful_vdict]
  exact jsonFaithfulEntries_map sc (fun e => e.1) (fun e => .vint e.2) (fun a _ => rfl)

theorem datasetVersion_faithful (v : DatasetVersionInfo)
    (h : jsonFaithful v.metadata = true) :
    jsonFaithful (datasetVersionToPyVal v) = true := by
  rw [datasetVersionToPyVal, jsonFaithful_vdict]
  simp [jsonFaithfulEntries_cons_kstr, h, sampleCounts_faithful v.sample_counts,
    jsonFaithful_vstr, jsonFaithfulEntries_nil]

theorem runInfo_faithful (r : RunInfo)
    (h1 : jsonFaithful r.config = true) (h2 : jsonFaithful r.metrics = true)
    (h3 : jsonFaithful r.system = true) :
    jsonFaithful (runInfoToPyVal r) = true := by
  rw [runInfoToPyVal, jsonFaithful_vdict]
  simp [jsonFaithfulEntries_cons_kstr, h1, h2, h3, jsonFaithful_vstr, jsonFaithfulEntries_nil]

theorem modelFile_faithful (f : ModelFileInfo) :
    jsonFaithful (modelFileToPyVal f) = true := by
  rw [modelFileToPyVal, jsonFaithful_vdict]
  simp [jsonFaithfulEntries_cons_kstr, jsonFaithful_vstr, jsonFaithful_vint, jsonFaithfulEntries_nil]

theorem modelVersion_faithful (v : ModelVersionInfo)
    (h1 : jsonFaithful v.metadata = true) (h2 : jsonFaithful v.metrics = true) :
    jsonFaithful (modelVersionToPyVal v) = true := by
  rw [modelVersionToPyVal, jsonFaithful_vdict]
  have hf : jsonFaithfulList (v.model_files.map modelFileToPyVal) = true :=
    jsonFaithfulList_map v.model_files modelFileToPyVal (fun a _ => modelFile_faithful a)
  simp [jsonFaithfulEntries_cons_kstr, h1, h2, jsonFaithful_vstr, jsonFaithful_vlist, hf,
    jsonFaithfulEntries_nil]

theorem lineageRec_faithful (l : LineageRec) (h : lineageRecFaithful l = true) :
    jsonFaithful (lineageRecToPyVal l) = true := by
  cases l with
  | runRec ds md ex =>
    simp only [lineageRecFaithful] at h
    rw [lineageRecToPyVal, jsonFaithful_vdict]
    simp [jsonFaithfulEntries_cons_kstr, jsonFaithful_vstr, h, jsonFaithfulEntries_nil]
  | modelRec rid ds =>
    simp only [lineageRecFaithful, Bool.and_eq_true] at h
    rw [lineageRecToPyVal, jsonFaithful_vdict]
    simp [jsonFaithfulEntries_cons_kstr, jsonFaithful_vstr, h.1, h.2, jsonFaithfulEntries_nil]
  | datasetRec df src =>
    simp only [lineageRecFaithful, Bool.and_eq_true] at h
    rw [lineageRecToPyVal, jsonFaithful_vdict]
    simp [jsonFaithfulEntries_cons_kstr, jsonFaithful_vstr, h.1, h.2, jsonFaithfulEntries_nil]

theorem indexToPyVal_faithful (i : Index) (h : indexDocsJsonFaithful i = true) :
    jsonFaithful (indexToPyVal i) = true := by
  simp only [indexDocsJsonFaithful, Bool.and_eq_true, List.all_eq_true] at h
  obtain ⟨⟨⟨hds, hrs⟩, hms⟩, hlin⟩ := h
  have d1 : jsonFaithfulEntries (i.datasets.map (fun d =>
      (PyKey.kstr d.1, PyVal.vdict (d.2.map (fun v =>
        (PyKey.kstr v.1, datasetVersionToPyVal v.2)))))) = true := by
    refine jsonFaithfulEntries_map _ (fun (d : String × List (String × DatasetVersionInfo)) => d.1) _ (fun d hd => ?_)
    rw [jsonFaithful_vdict]
    refine jsonFaithfulEntries_map _ (fun (v : String × DatasetVersionInfo) => v.1) _ (fun v hv => ?_)
    exact datasetVersion_faithful v.2 (by simpa using hds d hd v hv)
  have d2 : jsonFaithfulEntries (i.runs.map (fun r =>
      (PyKey.kstr r.1, runInfoToPyVal r.2))) = true := by
    refine jsonFaithfulEntries_map _ (fun (r : String × RunInfo) => r.1) _ (fun r hr => ?_)
    have hb := hrs r hr
    simp only [Bool.and_eq_true] at hb
    exact runInfo_faithful r.2 hb.1.1 hb.1.2 hb.2
  have d3 : jsonFaithfulEntries (i.models.map (fun m =>
      (PyKey.kstr m.1, PyVal.vdict (m.2.map (fun v =>
        (PyKey.kstr v.1, modelVersionToPyVal v.2)))))) = true := by
    refine jsonFaithfulEntries_map _ (fun (m : String × List (String × ModelVersionInfo)) => m.1) _ (fun m hm => ?_)
    rw [jsonFaithful_vdict]
    refine jsonFaithfulEntries_map _ (fun (v : String × ModelVersionInfo) => v.1) _ (fun v hv => ?_)
    have hb := hms m hm v hv
    simp only [Bool.and_eq_true] at hb
    exact modelVersion_faithful v.2 hb.1 hb.2
  have d4 : jsonFaithfulEntries (i.lineage.map (fun l =>
      (PyKey.kstr l.1, lineageRecToPyVal l.2))) = true := by
    refine jsonFaithfulEntries_map _ (fun (l : String × LineageRec) => l.1) _ (fun l hl => ?_)
    exact lineageRec_faithful l.2 (hlin l hl)
  rw [indexToPyVal, jsonFaithful_vdict]
  simp [jsonFaithfulEntries_cons_kstr, jsonFaithful_vdict, jsonFaithful_vstr,
    d1, d2, d3, d4, jsonFaithfulEntries_nil]

/-- C9 (amended) — Round-trip serialization: for every index produced
by `index_all` all of whose loaded documents are JSON-faithful — only
string mapping keys, no `datetime.date`/`datetime.datetime` values
(`yaml.safe_load` yields those for unquoted timestamps and
`json.dumps` raises `TypeError` on them), and no NaN (Python equality
on NaN is irreflexive) — serializing the index to the interchange
format succeeds and parsing the serialized text back reproduces a
structure equal field-for-field to the original index.  Outside that
fragment the property fails — see the counterexample. -/
theorem index_json_roundtrip (root : List (String × FSNode)) (now pr : String)
    (i : Index) (hok : index_all root now pr = .ok i)
    (hdocs : indexDocsJsonFaithful i = true) :
    jsonRoundTrip (indexToPyVal i) = some (indexToPyVal i) :=
  jsonRoundTrip_eq_of_jsonFaithful (indexToPyVal i) (indexToPyVal_faithful i hdocs)

/-- Witness for C9 (amended): a one-dataset workspace whose metadata
uses string keys round-trips unchanged. -/
theorem index_json_roundtrip_witness :
    jsonRoundTrip (indexToPyVal ⟨[("iris", [("v1",
        ⟨.vdict [(.kstr "name", .vstr "iris")], [("train", 2)], "datasets/iris/v1"⟩)])],
      [], [], [("iris/v1", .datasetRec (.vdict []) (.vdict []))], "T", "/p"⟩) =
      some (indexToPyVal ⟨[("iris", [("v1",
        ⟨.vdict [(.kstr "name", .vstr "iris")], [("train", 2)], "datasets/iris/v1"⟩)])],
      [], [], [("iris/v1", .datasetRec (.vdict []) (.vdict []))], "T", "/p"⟩) :=
  index_json_roundtrip
    [("datasets", .dir [("iris", .dir [("v1", .dir
      [("metadata.yaml", .file ⟨.ok (.vdict [(.kstr "name", .vstr "iris")]), .error "j", "", 8⟩),
       ("train", .dir [("a.csv", .file ⟨.error "y", .error "j", "", 5⟩),
                       ("b.csv", .file ⟨.error "y", .error "j", "", 5⟩)])])])])]
    "T" "/p" _ (by decide) (by decide)

/-- Safety of a document for the `field not in doc` membership loops:
containers support `in`; `None` and other scalars raise `TypeError`. -/
def docMembershipSafe : PyVal → Bool
  | .vdict _ => true
  | .vlist _ => true
  | .vstr _ => true
  | _ => false

/-- Safety of a metadata document for the dataset/model validators: it
must be a mapping (else `.get` raises `AttributeError`) whose
`version` value, when present, is a string (else `.startswith`
raises). -/
def metadataSafe : PyVal → Bool
  | .vdict es =>
    match pyEntriesGet es "version" with
    | some (.vstr _) => true
    | none => true
    | _ => false
  | _ => false

/-- The resolved path is not a directory (so `open` cannot raise
`IsADirectoryError`). -/
def fileNotDir : Option FSNode → Bool
  | some (.dir _) => false
  | _ => true

/-- A metadata file slot that the dataset/model validators can process
without raising. -/
def fileYamlMetadataSafe : Option FSNode → Bool
  | none => true
  | some (.dir _) => false
  | some (.file fd) =>
    match fd.yamlParse with
    | .error _ => true
    | .ok v => metadataSafe v

/-- A config file slot that the run validator can process without
raising. -/
def fileYamlMembershipSafe : Option FSNode → Bool
  | none => true
  | some (.dir _) => false
  | some (.file fd) =>
    match fd.yamlParse with
    | .error _ => true
    | .ok v => docMembershipSafe v

/-- A run directory the run validator can process without raising. -/
def runDirSafe (runEntries : List (String × FSNode)) : Bool :=
  fileYamlMembershipSafe (lookupNode runEntries "config.yaml") &&
    fileNotDir (lookupNode runEntries "metrics.json")

/-- A dataset/model version directory the per-version validators can
process without raising. -/
def versionDirSafe (verEntries : List (String × FSNode)) : Bool :=
  fileYamlMetadataSafe (lookupNode verEntries "metadata.yaml")

/-- The `runs/` category raises no exception in the rule engine. -/
def runsCatSafe (root : List (String × FSNode)) : Bool :=
  match lookupNode root "runs" with
  | none => true
  | some (.file _) => false
  | some (.dir entries) =>
    entries.all (fun e =>
      match e.2 with
      | .file _ => true
      | .dir runEntries => !strStartsWith e.1 "run-" || runDirSafe runEntries)

/-- A versioned category (`datasets/` or `models/`) raises no
exception in the rule engine. -/
def versionedCatSafe (root : List (String × FSNode)) (cat : String) : Bool :=
  match lookupNode root cat with
  | none => true
  | some (.file _) => false
  | some (.dir entries) =>
    entries.all (fun e =>
      match e.2 with
      | .file _ => true
      | .dir dsEntries =>
        e.1 == "README.md" ||
          dsEntries.all (fun v =>
            match v.2 with
            | .file _ => true
            | .dir verEntries => versionDirSafe verEntries))

/-- No configuration template path is a directory. -/
def templatesSafe (ws : Workspace) : Bool :=
  configTemplates.all (fun t => fileNotDir (lookupRel ws t))

/-- A workspace over which the whole rule engine completes without
raising: category entries are absent or directories, per-artifact
documents are membership- and metadata-safe, and no template or
`.gitattributes` path is a directory. -/
def wsWellFormed (ws : Workspace) : Bool :=
  runsCatSafe ws.root && versionedCatSafe ws.root "datasets" &&
    versionedCatSafe ws.root "models" && templatesSafe ws &&
    fileNotDir (lookupNode ws.root ".gitattributes")

/-- The doctor action completes without raising and leaves the
`validation_results` mapping and the strict flag untouched. -/
def NonRaisingVR {α : Type} (m : DocM α) : Prop :=
  ∀ st, ∃ r st', m.run st = .ok (r, st') ∧
    st'.validation_results = st.validation_results ∧ st'.strict = st.strict

theorem nonRaisingVR_pure {α : Type} (a : α) : NonRaisingVR (pure a) :=
  fun st => ⟨a, st, rfl, rfl, rfl⟩

theorem nonRaisingVR_bind {α β : Type} {m : DocM α} {f : α → DocM β}
    (hm : NonRaisingVR m) (hf : ∀ a, NonRaisingVR (f a)) :
    NonRaisingVR (m >>= f) := by
  intro st
  obtain ⟨a, st1, hrun, hvr, hs⟩ := hm st
  obtain ⟨b, st2, hrun2, hvr2, hs2⟩ := hf a st1
  refine ⟨b, st2, ?_, hvr2.trans hvr, hs2.trans hs⟩
  simp only [StateT.run, Bind.bind, StateT.bind] at hrun hrun2 ⊢
  rw [hrun]
  simpa [Bind.bind, Except.bind] using hrun2

theorem nonRaisingVR_addError (msg : String) : NonRaisingVR (addError msg) :=
  fun st => ⟨(), { st with errors := st.errors ++ [msg] }, rfl, rfl, rfl⟩

theorem nonRaisingVR_addWarning (msg : String) : NonRaisingVR (addWarning msg) :=
  fun st => ⟨(), { st with warnings := st.warnings ++ [msg] }, rfl, rfl, rfl⟩

theorem nonRaisingVR_liftM_ok {α : Type} {e : Except PyExc α} (a : α) (h : e = .ok a) :
    NonRaisingVR (liftM e : DocM α) := by
  intro st
  refine ⟨a, st, ?_, rfl, rfl⟩
  simp [StateT.run, liftM, monadLift, MonadLift.monadLift, StateT.lift, h, Bind.bind, Except.bind, Pure.pure, Except.pure]

theorem nonRaisingVR_foldlM {α β : Type} (f : β → α → DocM β) (l : List α)
    (hf : ∀ b a, a ∈ l → NonRaisingVR (f b a)) :
    ∀ init, NonRaisingVR (l.foldlM f init) := by
  induction l with
  | nil => intro init; simpa [List.foldlM] using nonRaisingVR_pure init
  | cons x xs ih =>
    intro init
    rw [List.foldlM_cons]
    exact nonRaisingVR_bind (hf init x (by simp))
      (fun b => ih (fun c a ha => hf c a (by simp [ha])) b)

theorem nonRaisingVR_forM {α : Type} (f : α → DocM Unit) (l : List α)
    (hf : ∀ a, a ∈ l → NonRaisingVR (f a)) :
    NonRaisingVR (l.forM f) := by
  induction l with
  | nil => simpa [List.forM] using nonRaisingVR_pure ()
  | cons x xs ih =>
    have : (x :: xs).forM f = f x >>= fun _ => xs.forM f := rfl
    rw [this]
    exact nonRaisingVR_bind (hf x (by simp))
      (fun _ => ih (fun a ha => hf a (by simp [ha])))

theorem nonRaisingVR_liftM_bind {α β : Type} {e : Except PyExc α} {f : α → DocM β} (a : α)
    (he : e = .ok a) (hf : NonRaisingVR (f a)) :
    NonRaisingVR ((liftM e : DocM α) >>= f) := by
  intro st
  obtain ⟨r, st', hrun, hvr, hs⟩ := hf st
  refine ⟨r, st', ?_, hvr, hs⟩
  simp only [StateT.run, Bind.bind, StateT.bind, liftM, monadLift, MonadLift.monadLift,
    StateT.lift, he, Except.bind] at hrun ⊢
  exact hrun

theorem nonRaisingVR_validate_required_directory (node : Option FSNode) (name pathStr : String) :
    NonRaisingVR (validate_required_directory node name pathStr) := by
  unfold validate_required_directory
  split
  · exact nonRaisingVR_bind (nonRaisingVR_addError _) (fun _ => nonRaisingVR_pure _)
  · split
    · exact nonRaisingVR_bind (nonRaisingVR_addError _) (fun _ => nonRaisingVR_pure _)
    · exact nonRaisingVR_pure _

theorem metadataSafe_membership {doc : PyVal} (h : metadataSafe doc = true) :
    docMembershipSafe doc = true := by
  cases doc <;> simp [metadataSafe, docMembershipSafe] at h ⊢

theorem checkRequiredField_safe (doc : PyVal) (mkMsg : String → String)
    (h : docMembershipSafe doc = true) (ok : Bool) (f : String) :
    NonRaisingVR (checkRequiredField doc mkMsg ok f) := by
  obtain ⟨b, hb⟩ : ∃ b, pyContains doc f = .ok b := by
    cases doc with
    | vdict es => exact ⟨_, rfl⟩
    | vlist xs => exact ⟨_, rfl⟩
    | vstr s => exact ⟨_, rfl⟩
    | vnull => simp [docMembershipSafe] at h
    | vbool c => simp [docMembershipSafe] at h
    | vint n => simp [docMembershipSafe] at h
    | vfloat f => simp [docMembershipSafe] at h
    | vdate d => simp [docMembershipSafe] at h
  unfold checkRequiredField
  refine nonRaisingVR_bind (nonRaisingVR_liftM_ok b hb) (fun present => ?_)
  split
  · exact nonRaisingVR_bind (nonRaisingVR_addError _) (fun _ => nonRaisingVR_pure _)
  · exact nonRaisingVR_pure _

theorem checkVersionFormat_safe (doc : PyVal) (mkMsg : String → String)
    (h : metadataSafe doc = true) (ok : Bool) :
    NonRaisingVR (checkVersionFormat doc mkMsg ok) := by
  cases doc with
  | vdict es =>
    obtain ⟨s, hs⟩ : ∃ s, (pyEntriesGet es "version").getD (.vstr "") = .vstr s := by
      simp only [metadataSafe] at h
      cases hv : pyEntriesGet es "version" with
      | none => exact ⟨"", by simp [hv]⟩
      | some v =>
        rw [hv] at h
        cases v with
        | vstr s => exact ⟨s, by simp [hv]⟩
        | vnull => simp at h
        | vbool b => simp at h
        | vint n => simp at h
        | vlist xs => simp at h
        | vdict fs => simp at h
        | vfloat f => simp at h
        | vdate d => simp at h
    unfold checkVersionFormat
    refine nonRaisingVR_liftM_bind ((pyEntriesGet es "version").getD (.vstr "")) rfl ?_
    rw [hs]
    refine nonRaisingVR_liftM_bind (strStartsWith s "v") rfl ?_
    split
    · refine nonRaisingVR_bind (nonRaisingVR_liftM_ok ((pyEntriesGet es "version").getD .vnull) rfl) (fun v2 => ?_)
      exact nonRaisingVR_bind (nonRaisingVR_addError _) (fun _ => nonRaisingVR_pure _)
    · exact nonRaisingVR_pure _
  | vnull => simp [metadataSafe] at h
  | vbool b => simp [metadataSafe] at h
  | vint n => simp [metadataSafe] at h
  | vstr s => simp [metadataSafe] at h
  | vlist xs => simp [metadataSafe] at h
  | vfloat f => simp [metadataSafe] at h
  | vdate d => simp [metadataSafe] at h

theorem nonRaisingVR_checkSplitPresent (verEntries : List (String × FSNode))
    (verName split : String) :
    NonRaisingVR (checkSplitPresent verEntries verName split) := by
  unfold checkSplitPresent
  split
  · exact nonRaisingVR_pure _
  · exact nonRaisingVR_addWarning _

theorem validate_dataset_version_safe (pathStr verName : String)
    (verEntries : List (String × FSNode))
    (h : versionDirSafe verEntries = true) :
    NonRaisingVR (validate_dataset_version pathStr verName verEntries) := by
  unfold versionDirSafe at h
  unfold validate_dataset_version
  refine nonRaisingVR_bind (nonRaisingVR_checkSplitPresent _ _ _) (fun _ => ?_)
  refine nonRaisingVR_bind (nonRaisingVR_checkSplitPresent _ _ _) (fun _ => ?_)
  refine nonRaisingVR_bind (nonRaisingVR_checkSplitPresent _ _ _) (fun _ => ?_)
  split
  · exact nonRaisingVR_bind (nonRaisingVR_addError _) (fun _ => nonRaisingVR_pure _)
  · next es heq => rw [heq] at h; simp [fileYamlMetadataSafe] at h
  · next fd heq =>
    rw [heq] at h
    split
    · exact nonRaisingVR_bind (nonRaisingVR_addError _) (fun _ => nonRaisingVR_pure _)
    · next metadata hp =>
      simp only [fileYamlMetadataSafe, hp] at h
      refine nonRaisingVR_bind
        (nonRaisingVR_foldlM
          (checkRequiredField metadata
            (fun f => s!"Dataset {verName} metadata missing field: {f}"))
          datasetRequiredFields
          (fun b a _ => checkRequiredField_safe metadata _ (metadataSafe_membership h) b a) true)
        (fun s1 => checkVersionFormat_safe metadata _ h s1)

theorem validate_model_version_safe (pathStr verName : String)
    (verEntries : List (String × FSNode))
    (h : versionDirSafe verEntries = true) :
    NonRaisingVR (validate_model_version pathStr verName verEntries) := by
  unfold versionDirSafe at h
  unfold validate_model_version
  refine nonRaisingVR_bind ?_ (fun _ => ?_)
  · refine nonRaisingVR_forM _ _ (fun a _ => ?_)
    split
    · exact nonRaisingVR_pure _
    · exact nonRaisingVR_addWarning _
  refine nonRaisingVR_bind ?_ (fun _ => ?_)
  · unfold checkModelArtifacts
    dsimp only
    split
    · exact nonRaisingVR_addWarning _
    · exact nonRaisingVR_pure _
  split
  · exact nonRaisingVR_pure _
  · next es heq => rw [heq] at h; simp [fileYamlMetadataSafe] at h
  · next fd heq =>
    rw [heq] at h
    split
    · exact nonRaisingVR_bind (nonRaisingVR_addError _) (fun _ => nonRaisingVR_pure _)
    · next metadata hp =>
      simp only [fileYamlMetadataSafe, hp] at h
      refine nonRaisingVR_bind
        (nonRaisingVR_foldlM
          (checkRequiredField metadata
            (fun f => s!"Model {verName} metadata missing field: {f}"))
          modelRequiredFields
          (fun b a _ => checkRequiredField_safe metadata _ (metadataSafe_membership h) b a) true)
        (fun s1 => checkVersionFormat_safe metadata _ h s1)

theorem validate_run_directory_safe (pathStr runName : String)
    (runEntries : List (String × FSNode))
    (h : runDirSafe runEntries = true) :
    NonRaisingVR (validate_run_directory pathStr runName runEntries) := by
  simp only [runDirSafe, Bool.and_eq_true] at h
  unfold validate_run_directory
  refine nonRaisingVR_bind ?_ (fun s1 => ?_)
  · refine nonRaisingVR_foldlM _ runRequiredFiles (fun b a _ => ?_) true
    split
    · exact nonRaisingVR_bind (nonRaisingVR_addError _) (fun _ => nonRaisingVR_pure _)
    · exact nonRaisingVR_pure _
  refine nonRaisingVR_bind ?_ (fun s2 => ?_)
  · split
    · exact nonRaisingVR_pure _
    · next es heq => rw [heq] at h; simp [fileYamlMembershipSafe] at h
    · next fd heq =>
      rw [heq] at h
      split
      · exact nonRaisingVR_bind (nonRaisingVR_addError _) (fun _ => nonRaisingVR_pure _)
      · next config hp =>
        have h1 := h.1
        simp only [fileYamlMembershipSafe, hp] at h1
        exact nonRaisingVR_foldlM
          (checkRequiredField config
            (fun f => s!"Run {runName} config missing field: {f}"))
          runRequiredFields
          (fun b a _ => checkRequiredField_safe config _ h1 b a) s1
  · split
    · exact nonRaisingVR_pure _
    · next es heq => rw [heq] at h; simp [fileNotDir] at h
    · next fd heq =>
      split
      · exact nonRaisingVR_bind (nonRaisingVR_addError _) (fun _ => nonRaisingVR_pure _)
      · split
        · exact nonRaisingVR_bind (nonRaisingVR_addError _) (fun _ => nonRaisingVR_pure _)
        · exact nonRaisingVR_pure _

/-- The doctor action completes without raising and its only effect on
`validation_results` is recording its own result under key `k`. -/
def InsertShape (k : String) (m : DocM Bool) : Prop :=
  ∀ st, ∃ b st', m.run st = .ok (b, st') ∧
    st'.validation_results = dictInsert st.validation_results k b ∧
    st'.strict = st.strict

theorem insertShape_bind {α : Type} {m : DocM α} {f : α → DocM Bool} {k : String}
    (hm : NonRaisingVR m) (hf : ∀ a, InsertShape k (f a)) :
    InsertShape k (m >>= f) := by
  intro st
  obtain ⟨a, st1, hrun, hvr, hs⟩ := hm st
  obtain ⟨b, st2, hrun2, hvr2, hs2⟩ := hf a st1
  refine ⟨b, st2, ?_, by rw [hvr2, hvr], hs2.trans hs⟩
  simp only [StateT.run, Bind.bind, StateT.bind] at hrun hrun2 ⊢
  rw [hrun]
  simpa [Bind.bind, Except.bind] using hrun2

theorem setResult_pure_shape (k : String) (s : Bool) :
    InsertShape k (do setResult k s; pure s) :=
  fun st =>
    ⟨s, { st with validation_results := dictInsert st.validation_results k s },
      rfl, rfl, rfl⟩

theorem validate_tfc_0001_layout_shape (ws : Workspace) :
    InsertShape "tfc_0001" (validate_tfc_0001_layout ws) := by
  unfold validate_tfc_0001_layout
  refine insertShape_bind ?_ (fun s1 => ?_)
  · exact nonRaisingVR_foldlM _ requiredDirectories
      (fun b a _ => nonRaisingVR_bind
        (nonRaisingVR_validate_required_directory _ _ _) (fun _ => nonRaisingVR_pure _)) true
  · refine insertShape_bind ?_ (fun s2 => setResult_pure_shape _ _)
    refine nonRaisingVR_foldlM _ requiredFiles0001 (fun b a _ => ?_) s1
    split
    · exact nonRaisingVR_bind (nonRaisingVR_addError _) (fun _ => nonRaisingVR_pure _)
    · exact nonRaisingVR_pure _

theorem validate_tfc_0002_schemas_shape (ws : Workspace)
    (h : templatesSafe ws = true) :
    InsertShape "tfc_0002" (validate_tfc_0002_schemas ws) := by
  simp only [templatesSafe, List.all_eq_true] at h
  unfold validate_tfc_0002_schemas
  refine insertShape_bind ?_ (fun s => setResult_pure_shape _ _)
  refine nonRaisingVR_foldlM _ configTemplates (fun b a ha => ?_) true
  have ha2 := h a ha
  split
  · exact nonRaisingVR_bind (nonRaisingVR_addError _) (fun _ => nonRaisingVR_pure _)
  · next es heq => rw [heq] at ha2; simp [fileNotDir] at ha2
  · next fd heq =>
    split
    · exact nonRaisingVR_bind (nonRaisingVR_addError _) (fun _ => nonRaisingVR_pure _)
    · split
      · exact nonRaisingVR_bind (nonRaisingVR_addError _) (fun _ => nonRaisingVR_pure _)
      · exact nonRaisingVR_pure _

theorem validate_tfc_0003_runs_shape (ws : Workspace)
    (h : runsCatSafe ws.root = true) :
    ∀ st, ∃ b st', (validate_tfc_0003_runs ws).run st = .ok (b, st') ∧
      st'.validation_results =
        (if nodeExists (lookupNode ws.root "runs")
         then dictInsert st.validation_results "tfc_0003" b
         else st.validation_results) ∧
      st'.strict = st.strict := by
  unfold runsCatSafe at h
  unfold validate_tfc_0003_runs
  split
  · next heq =>
    intro st
    exact ⟨true, st, rfl, by simp [heq, nodeExists], rfl⟩
  · next fd heq => rw [heq] at h; simp at h
  · next entries heq =>
    rw [heq] at h
    simp only [List.all_eq_true] at h
    have hshape : InsertShape "tfc_0003"
        (do
          let success ← entries.foldlM (fun ok e =>
            match e.2 with
            | .dir runEntries =>
              if strStartsWith e.1 "run-" then do
                let r ← validate_run_directory s!"{ws.rootStr}/runs/{e.1}" e.1 runEntries
                pure (ok && r)
              else pure ok
            | .file _ => pure ok) true
          setResult "tfc_0003" success
          pure success) := by
      refine insertShape_bind ?_ (fun s => setResult_pure_shape _ _)
      refine nonRaisingVR_foldlM _ entries (fun b a ha => ?_) true
      have ha2 := h a ha
      split
      · next runEntries heqa =>
        split
        · next hpre =>
          rw [heqa] at ha2
          simp only [hpre, Bool.not_true, Bool.false_or] at ha2
          exact nonRaisingVR_bind (validate_run_directory_safe _ _ _ ha2)
            (fun r => nonRaisingVR_pure _)
        · exact nonRaisingVR_pure _
      · exact nonRaisingVR_pure _
    intro st
    obtain ⟨b, st', hrun, hvr, hs⟩ := hshape st
    exact ⟨b, st', hrun, by simp [heq, nodeExists, hvr], hs⟩

theorem validate_tfc_0004_datasets_shape (ws : Workspace)
    (h : versionedCatSafe ws.root "datasets" = true) :
    ∀ st, ∃ b st', (validate_tfc_0004_datasets ws).run st = .ok (b, st') ∧
      st'.validation_results =
        (if nodeExists (lookupNode ws.root "datasets")
         then dictInsert st.validation_results "tfc_0004" b
         else st.validation_results) ∧
      st'.strict = st.strict := by
  unfold versionedCatSafe at h
  unfold validate_tfc_0004_datasets
  split
  · next heq =>
    intro st
    exact ⟨true, st, rfl, by simp [heq, nodeExists], rfl⟩
  · next fd heq => rw [heq] at h; simp at h
  · next entries heq =>
    rw [heq] at h
    simp only [List.all_eq_true] at h
    have hshape : InsertShape "tfc_0004"
        (do
          let success ← entries.foldlM (fun ok e =>
            match e.2 with
            | .dir dsEntries =>
              if e.1 == "README.md" then pure ok
              else do
                let dn := e.1
                dsEntries.foldlM (fun ok2 v =>
                  match v.2 with
                  | .dir verEntries => do
                    let r ← validate_dataset_version
                      s!"{ws.rootStr}/datasets/{dn}/{v.1}" v.1 verEntries
                    pure (ok2 && r)
                  | .file _ => pure ok2) ok
            | .file _ => pure ok) true
          setResult "tfc_0004" success
          pure success) := by
      refine insertShape_bind ?_ (fun s => setResult_pure_shape _ _)
      refine nonRaisingVR_foldlM _ entries (fun b a ha => ?_) true
      have ha2 := h a ha
      split
      · next dsEntries heqa =>
        split
        · exact nonRaisingVR_pure _
        · next hname =>
          rw [heqa] at ha2
          have hall : ∀ v, v ∈ dsEntries → (match v.2 with
              | FSNode.file _ => true
              | FSNode.dir verEntries => versionDirSafe verEntries) = true := by
            rcases Bool.or_eq_true_iff.mp ha2 with hc | hc
            · exact absurd hc (by simpa using hname)
            · exact fun v hv => (List.all_eq_true.mp hc) v hv
          refine nonRaisingVR_foldlM _ dsEntries (fun b2 v hv => ?_) b
          have hv2 := hall v hv
          split
          · next verEntries heqv =>
            rw [heqv] at hv2
            exact nonRaisingVR_bind (validate_dataset_version_safe _ _ _ hv2)
              (fun r => nonRaisingVR_pure _)
          · exact nonRaisingVR_pure _
      · exact nonRaisingVR_pure _
    intro st
    obtain ⟨b, st', hrun, hvr, hs⟩ := hshape st
    exact ⟨b, st', hrun, by simp [heq, nodeExists, hvr], hs⟩

theorem validate_tfc_0005_models_shape (ws : Workspace)
    (h : versionedCatSafe ws.root "models" = true) :
    ∀ st, ∃ b st', (validate_tfc_0005_models ws).run st = .ok (b, st') ∧
      st'.validation_results =
        (if nodeExists (lookupNode ws.root "models")
         then dictInsert st.validation_results "tfc_0005" b
         else st.validation_results) ∧
      st'.strict = st.strict := by
  unfold versionedCatSafe at h
  unfold validate_tfc_0005_models
  split
  · next heq =>
    intro st
    exact ⟨true, st, rfl, by simp [heq, nodeExists], rfl⟩
  · next fd heq => rw [heq] at h; simp at h
  · next entries heq =>
    rw [heq] at h
    simp only [List.all_eq_true] at h
    have hshape : InsertShape "tfc_0005"
        (do
          let success ← entries.foldlM (fun ok e =>
            match e.2 with
            | .dir mEntries =>
              if e.1 == "README.md" then pure ok
              else do
                let mn := e.1
                mEntries.foldlM (fun ok2 v =>
                  match v.2 with
                  | .dir verEntries => do
                    let r ← validate_model_version
                      s!"{ws.rootStr}/models/{mn}/{v.1}" v.1 verEntries
                    pure (ok2 && r)
                  | .file _ => pure ok2) ok
            | .file _ => pure ok) true
          setResult "tfc_0005" success
          pure success) := by
      refine insertShape_bind ?_ (fun s => setResult_pure_shape _ _)
      refine nonRaisingVR_foldlM _ entries (fun b a ha => ?_) true
      have ha2 := h a ha
      split
      · next mEntries heqa =>
        split
        · exact nonRaisingVR_pure _
        · next hname =>
          rw [heqa] at ha2
          have hall : ∀ v, v ∈ mEntries → (match v.2 with
              | FSNode.file _ => true
              | FSNode.dir verEntries => versionDirSafe verEntries) = true := by
            rcases Bool.or_eq_true_iff.mp ha2 with hc | hc
            · exact absurd hc (by simpa using hname)
            · exact fun v hv => (List.all_eq_true.mp hc) v hv
          refine nonRaisingVR_foldlM _ mEntries (fun b2 v hv => ?_) b
          have hv2 := hall v hv
          split
          · next verEntries heqv =>
            rw [heqv] at hv2
            exact nonRaisingVR_bind (validate_model_version_safe _ _ _ hv2)
              (fun r => nonRaisingVR_pure _)
          · exact nonRaisingVR_pure _
      · exact nonRaisingVR_pure _
    intro st
    obtain ⟨b, st', hrun, hvr, hs⟩ := hshape st
    exact ⟨b, st', hrun, by simp [heq, nodeExists, hvr], hs⟩

theorem validate_git_lfs_setup_safe (ws : Workspace)
    (h : fileNotDir (lookupNode ws.root ".gitattributes") = true) :
    NonRaisingVR (validate_git_lfs_setup ws) := by
  unfold validate_git_lfs_setup
  split
  · exact nonRaisingVR_bind (nonRaisingVR_addError _) (fun _ => nonRaisingVR_pure _)
  · refine nonRaisingVR_bind ?_ (fun success => ?_)
    · split
      · next fd heq =>
        refine nonRaisingVR_bind ?_ (fun _ => nonRaisingVR_pure _)
        unfold warnIfNoLfsFilter
        split
        · exact nonRaisingVR_addWarning _
        · exact nonRaisingVR_pure _
      · next es heq => rw [heq] at h; simp [fileNotDir] at h
      · exact nonRaisingVR_bind (nonRaisingVR_addError _) (fun _ => nonRaisingVR_pure _)
    · refine nonRaisingVR_bind ?_ (fun _ => nonRaisingVR_pure _)
      refine nonRaisingVR_forM _ largeExtensions (fun ext _ => ?_)
      refine nonRaisingVR_forM _ _ (fun f _ => ?_)
      split
      · exact nonRaisingVR_addWarning _
      · exact nonRaisingVR_pure _

/-- C10 (amended) — After running all rules
(`validate_all_tfc` with no target) over a workspace the engine can
process without raising, the `validation_results` mapping contains the
keys `tfc_0001` and `tfc_0002` always, and each of `tfc_0003`,
`tfc_0004`, `tfc_0005` exactly when the corresponding category
directory (`runs/`, `datasets/`, `models/`) exists — so all five keys
appear exactly when all three category directories exist (the claim's
"exactly the five keys" fails for absent categories: see the
counterexample).  The Git-LFS rule's boolean outcome is folded into
the aggregate success value and its messages into the accumulators,
but it never contributes a key to `validation_results` in the
report. -/
theorem validation_results_keys (ws : Workspace) (strict : Bool)
    (h : wsWellFormed ws = true) :
    (∃ b st', (validate_all_tfc ws none).run (initDoctor strict) = .ok (b, st') ∧
      st'.validation_results.map (fun e => e.1) =
        ["tfc_0001", "tfc_0002"] ++
        (if nodeExists (lookupNode ws.root "runs") then ["tfc_0003"] else []) ++
        (if nodeExists (lookupNode ws.root "datasets") then ["tfc_0004"] else []) ++
        (if nodeExists (lookupNode ws.root "models") then ["tfc_0005"] else [])) ∧
    (∀ st b st', (validate_git_lfs_setup ws).run st = .ok (b, st') →
      st'.validation_results = st.validation_results) := by
  simp only [wsWellFormed, Bool.and_eq_true] at h
  obtain ⟨⟨⟨⟨hruns, hds⟩, hms⟩, htmpl⟩, hga⟩ := h
  constructor
  · obtain ⟨b1, st1, h1run, h1vr, h1s⟩ :=
      validate_tfc_0001_layout_shape ws (initDoctor strict)
    obtain ⟨b2, st2, h2run, h2vr, h2s⟩ :=
      validate_tfc_0002_schemas_shape ws htmpl st1
    obtain ⟨b3, st3, h3run, h3vr, h3s⟩ :=
      validate_tfc_0003_runs_shape ws hruns st2
    obtain ⟨b4, st4, h4run, h4vr, h4s⟩ :=
      validate_tfc_0004_datasets_shape ws hds st3
    obtain ⟨b5, st5, h5run, h5vr, h5s⟩ :=
      validate_tfc_0005_models_shape ws hms st4
    obtain ⟨b6, st6, h6run, h6vr, h6s⟩ :=
      validate_git_lfs_setup_safe ws hga st5
    refine ⟨true && b1 && b2 && b3 && b4 && b5 && b6, st6, ?_, ?_⟩
    · show (validate_all_rules ws).run (initDoctor strict) = _
      unfold validate_all_rules
      simp only [StateT.run, Bind.bind, StateT.bind] at h1run h2run h3run h4run h5run h6run ⊢
      rw [h1run]
      simp only [Except.bind]
      rw [h2run]
      simp only [Except.bind]
      rw [h3run]
      simp only [Except.bind]
      rw [h4run]
      simp only [Except.bind]
      rw [h5run]
      simp only [Except.bind]
      rw [h6run]
      rfl
    · rw [h6vr, h5vr, h4vr, h3vr, h2vr, h1vr]
      show (_ : List (String × Bool)).map _ = _
      have e1 : dictInsert (initDoctor strict).validation_results "tfc_0001" b1 =
          [("tfc_0001", b1)] := rfl
      rw [e1]
      have e2 : dictInsert [("tfc_0001", b1)] "tfc_0002" b2 =
          [("tfc_0001", b1), ("tfc_0002", b2)] := by
        simp [dictInsert]
      rw [e2]
      cases hr : nodeExists (lookupNode ws.root "runs") <;>
        cases hd : nodeExists (lookupNode ws.root "datasets") <;>
        cases hm : nodeExists (lookupNode ws.root "models") <;>
        simp [dictInsert]
  · intro st b st' hrun
    obtain ⟨b0, st0, h0run, h0vr, h0s⟩ := validate_git_lfs_setup_safe ws hga st
    rw [hrun] at h0run
    obtain ⟨he1, he2⟩ := Prod.mk.injEq .. ▸ Except.ok.inj h0run
    rw [← he2] at h0vr
    exact h0vr

/-- C8 (amended) — Unknown-rule handling: for every rule identifier
outside the recognized set 1-5 other than 0 (which Python's truthiness
treats as "no target at all", running every rule — see the
counterexample), invoking validation with that single rule id returns
failure, runs no rule, and accumulates exactly one error message
naming the unknown id. -/
theorem unknown_rule_rejected (ws : Workspace) (st : DoctorState) (t : Int)
    (h0 : t ≠ 0) (h15 : t ∉ ([1, 2, 3, 4, 5] : List Int)) :
    (validate_all_tfc ws (some t)).run st =
      .ok (false, { st with errors := st.errors ++ [s!"Unknown TFC number: {t}"] }) := by
  simp only [List.mem_cons, List.not_mem_nil, or_false, not_or] at h15
  obtain ⟨h1, h2, h3, h4, h5⟩ := h15
  unfold validate_all_tfc
  simp [h0, h1, h2, h3, h4, h5, StateT.run, Bind.bind, StateT.bind, addError,
    modify, modifyGet, MonadStateOf.modifyGet, StateT.modifyGet, Pure.pure,
    StateT.pure, Except.pure, Except.bind]

/-- Counterexample to C10 as stated: over an empty workspace root
(no `runs/`, `datasets/` or `models/` directories) running all rules
leaves `validation_results` with only the two keys `tfc_0001` and
`tfc_0002` — the per-category rules return early without recording
their key. -/
theorem validation_results_keys_counterexample :
    ((validate_all_tfc ⟨"/w0", [], false, []⟩ none).run (initDoctor false)).map
      (fun r => r.2.validation_results.map (fun e => e.1)) =
      .ok ["tfc_0001", "tfc_0002"] := by
  decide

/-- Witness for C10 (amended): a workspace with an empty `runs/`
directory and no `datasets/` or `models/` records exactly the keys
`tfc_0001`, `tfc_0002`, `tfc_0003`. -/
theorem validation_results_keys_witness :
    ∃ b st', (validate_all_tfc ⟨"/w", [("runs", FSNode.dir [])], true, []⟩ none).run
        (initDoctor false) = .ok (b, st') ∧
      st'.validation_results.map (fun e => e.1) =
        ["tfc_0001", "tfc_0002"] ++
        (if nodeExists (lookupNode [("runs", FSNode.dir [])] "runs")
          then ["tfc_0003"] else []) ++
        (if nodeExists (lookupNode [("runs", FSNode.dir [])] "datasets")
          then ["tfc_0004"] else []) ++
        (if nodeExists (lookupNode [("runs", FSNode.dir [])] "models")
          then ["tfc_0005"] else []) :=
  (validation_results_keys ⟨"/w", [("runs", FSNode.dir [])], true, []⟩ false (by decide)).1

/-- Counterexample to C3 as stated: a dataset version whose
`metadata.yaml` parses to the null document makes the doctor's
per-version validator raise `TypeError` (`field not in None`), so the
exception escapes per-artifact processing. -/
theorem doctor_null_metadata_counterexample :
    (validate_dataset_version "/w/datasets/iris/v1" "v1"
        [("metadata.yaml", FSNode.file ⟨.ok .vnull, .error "j", "", 0⟩)]).run
      (initDoctor false) = .error .typeError := by
  decide

/-- C3 (amended) — No exception escapes the per-artifact processing of
either subsystem provided each artifact document is well-formed for
the operations applied to it: the per-version validators complete
normally whenever the metadata file, if present, is a regular file
that either fails to parse or parses to a mapping whose `version`
field (if any) is a string; the run validator additionally needs the
run config, if it parses, to parse to a container, and `metrics.json`
not to be a directory; the indexer's per-run step completes normally
whenever the three structured artifact paths are not directories.
(A metadata document that parses to null or a non-mapping instead
makes the doctor's validators raise — see the counterexample.) -/
theorem per_artifact_no_raise :
    (∀ pathStr verName verEntries st, versionDirSafe verEntries = true →
      ∃ r st', (validate_dataset_version pathStr verName verEntries).run st = .ok (r, st')) ∧
    (∀ pathStr verName verEntries st, versionDirSafe verEntries = true →
      ∃ r st', (validate_model_version pathStr verName verEntries).run st = .ok (r, st')) ∧
    (∀ pathStr runName runEntries st, runDirSafe runEntries = true →
      ∃ r st', (validate_run_directory pathStr runName runEntries).run st = .ok (r, st')) ∧
    (∀ runName runEntries,
      fileNotDir (lookupNode runEntries "config.yaml") = true →
      fileNotDir (lookupNode runEntries "metrics.json") = true →
      fileNotDir (lookupNode runEntries "system.json") = true →
      ∃ r, index_run runName runEntries = .ok r) := by
  refine ⟨?_, ?_, ?_, ?_⟩
  · intro pathStr verName verEntries st hsafe
    obtain ⟨r, st', hrun, _, _⟩ := validate_dataset_version_safe pathStr verName verEntries hsafe st
    exact ⟨r, st', hrun⟩
  · intro pathStr verName verEntries st hsafe
    obtain ⟨r, st', hrun, _, _⟩ := validate_model_version_safe pathStr verName verEntries hsafe st
    exact ⟨r, st', hrun⟩
  · intro pathStr runName runEntries st hsafe
    obtain ⟨r, st', hrun, _, _⟩ := validate_run_directory_safe pathStr runName runEntries hsafe st
    exact ⟨r, st', hrun⟩
  · intro runName runEntries h1 h2 h3
    obtain ⟨c, hc⟩ : ∃ c, load_yaml_file (lookupNode runEntries "config.yaml") = .ok c := by
      cases hx : lookupNode runEntries "config.yaml" with
      | none => exact ⟨_, rfl⟩
      | some node =>
        cases node with
        | file fd => exact ⟨_, rfl⟩
        | dir es => rw [hx] at h1; simp [fileNotDir] at h1
    obtain ⟨m, hm⟩ : ∃ m, load_json_file (lookupNode runEntries "metrics.json") = .ok m := by
      cases hx : lookupNode runEntries "metrics.json" with
      | none => exact ⟨_, rfl⟩
      | some node =>
        cases node with
        | file fd => exact ⟨_, rfl⟩
        | dir es => rw [hx] at h2; simp [fileNotDir] at h2
    obtain ⟨y, hy⟩ : ∃ y, load_json_file (lookupNode runEntries "system.json") = .ok y := by
      cases hx : lookupNode runEntries "system.json" with
      | none => exact ⟨_, rfl⟩
      | some node =>
        cases node with
        | file fd => exact ⟨_, rfl⟩
        | dir es => rw [hx] at h3; simp [fileNotDir] at h3
    refine ⟨⟨c, m, y, read_text_preview (lookupNode runEntries "log.txt") 500,
      "runs/" ++ runName⟩, ?_⟩
    unfold index_run
    rw [hc]
    simp only [Bind.bind, Except.bind]
    rw [hm]
    simp only
    rw [hy]
    rfl

/-- Witness for C3 (amended): the `iris/v1` version directory is
processed by the dataset validator without raising. -/
theorem per_artifact_no_raise_witness :
    ∃ r st', (validate_dataset_version "/w/datasets/iris/v1" "v1" irisV1Entries).run
      (initDoctor false) = .ok (r, st') :=
  per_artifact_no_raise.1 "/w/datasets/iris/v1" "v1" irisV1Entries (initDoctor false)
    (by decide)

/-- Counterexample to C8 as stated: the rule id `0` lies outside the
recognized set `1`–`5`, yet requesting validation of it runs every
rule (the guard `if target_tfc:` is false for `0`): over an empty
workspace the rules record `validation_results` entries, and no
`Unknown TFC number` error is accumulated. -/
theorem unknown_rule_zero_counterexample :
    ((validate_all_tfc ⟨"/w1", [], false, []⟩ (some 0)).run (initDoctor false)).map
      (fun r => (r.2.validation_results.map (fun e => e.1),
                 r.2.errors.contains "Unknown TFC number: 0")) =
      .ok (["tfc_0001", "tfc_0002"], false) := by
  decide

/-- Witness for C8 (amended): requesting the unknown rule id `7`
returns failure, runs no rule, and accumulates exactly the one error
naming the id. -/
theorem unknown_rule_rejected_witness :
    (validate_all_tfc ⟨"/w2", [], false, []⟩ (some 7)).run (initDoctor false) =
      .ok (false, { initDoctor false with
        errors := (initDoctor false).errors ++ [s!"Unknown TFC number: {(7 : Int)}"] }) :=
  unknown_rule_rejected ⟨"/w2", [], false, []⟩ (initDoctor false) 7 (by decide) (by decide)

/-- Association-list lookup under Python-dict semantics (first match;
keys are unique in dict-built lists). -/
def alookup {α : Type} (l : List (String × α)) (k : String) : Option α :=
  (l.find? (fun e => e.1 == k)).map (fun e => e.2)

theorem alookup_nil {α : Type} (k : String) : alookup ([] : List (String × α)) k = none := rfl

theorem alookup_cons {α : Type} (e : String × α) (l : List (String × α)) (k : String) :
    alookup (e :: l) k = if e.1 = k then some e.2 else alookup l k := by
  by_cases h : e.1 = k
  · simp [alookup, List.find?_cons, h]
  · simp [alookup, List.find?_cons, h]

theorem alookup_map_update_ne {α : Type} (l : List (String × α)) (k k' : String) (v : α)
    (h : k' ≠ k) :
    alookup (l.map (fun e => if e.1 == k then (k, v) else e)) k' = alookup l k' := by
  induction l with
  | nil => rfl
  | cons e es ih =>
    by_cases hek : e.1 = k
    · simp only [List.map_cons, hek, beq_self_eq_true, if_pos]
      rw [alookup_cons, alookup_cons, hek, if_neg (Ne.symm h), if_neg (Ne.symm h)]
      exact ih
    · have : (e.1 == k) = false := by simp [hek]
      simp only [List.map_cons, this, Bool.false_eq_true, if_neg, not_false_iff]
      rw [alookup_cons, alookup_cons, ih]

theorem alookup_map_update_self {α : Type} (l : List (String × α)) (k : String) (v : α)
    (hany : l.any (fun e => e.1 == k) = true) :
    alookup (l.map (fun e => if e.1 == k then (k, v) else e)) k = some v := by
  induction l with
  | nil => simp at hany
  | cons e es ih =>
    by_cases hek : e.1 = k
    · simp only [List.map_cons, hek, beq_self_eq_true, if_pos]
      rw [alookup_cons]
      simp
    · have hb : (e.1 == k) = false := by simp [hek]
      simp only [List.any_cons, hb, Bool.false_or] at hany
      simp only [List.map_cons, hb, Bool.false_eq_true, if_neg, not_false_iff]
      rw [alookup_cons, ih hany]
      simp [hek]

theorem alookup_append_right {α : Type} (l1 l2 : List (String × α)) (k : String)
    (h : alookup l1 k = none) : alookup (l1 ++ l2) k = alookup l2 k := by
  induction l1 with
  | nil => rfl
  | cons e es ih =>
    rw [alookup_cons] at h
    by_cases hek : e.1 = k
    · simp [hek] at h
    · rw [List.cons_append, alookup_cons, if_neg hek]
      exact ih (by simpa [hek] using h)

theorem alookup_not_found {α : Type} (l : List (String × α)) (k : String)
    (hany : l.any (fun e => e.1 == k) = false) : alookup l k = none := by
  induction l with
  | nil => rfl
  | cons e es ih =>
    simp only [List.any_cons, Bool.or_eq_false_iff] at hany
    rw [alookup_cons, if_neg (by simpa using hany.1)]
    exact ih hany.2

/-- `dictInsert` from the lookup side: the inserted key maps to the new
value, every other key is untouched. -/
theorem alookup_dictInsert {α : Type} (l : List (String × α)) (k k' : String) (v : α) :
    alookup (dictInsert l k v) k' = if k' = k then some v else alookup l k' := by
  unfold dictInsert
  by_cases hany : l.any (fun e => e.1 == k) = true
  · rw [if_pos hany]
    by_cases hk : k' = k
    · rw [if_pos hk, hk, alookup_map_update_self l k v hany]
    · rw [if_neg hk, alookup_map_update_ne l k k' v hk]
  · rw [if_neg hany]
    have hnone : alookup l k = none :=
      alookup_not_found l k (by revert hany; cases l.any (fun e => e.1 == k) <;> simp)
    by_cases hk : k' = k
    · rw [if_pos hk, hk, alookup_append_right l [(k, v)] k hnone, alookup_cons]
      simp
    · rw [if_neg hk]
      by_cases hfound : alookup l k' = none
      · rw [hfound, alookup_append_right l [(k, v)] k' hfound, alookup_cons,
          if_neg (fun e => hk e.symm)]
        rfl
      · obtain ⟨x, hx⟩ := Option.ne_none_iff_exists'.mp hfound
        rw [hx]
        clear hnone hany hfound
        induction l with
        | nil => simp [alookup] at hx
        | cons e es ih =>
          rw [alookup_cons] at hx
          rw [List.cons_append, alookup_cons]
          by_cases hek : e.1 = k'
          · rw [if_pos hek] at hx
            rw [if_pos hek, hx]
          · rw [if_neg hek] at hx
            rw [if_neg hek]
            exact ih hx

/-- Invariant preservation through a successful `foldlM` in the
`Except` monad. -/
theorem foldlM_invariant {β γ : Type} (step : γ → β → Except PyExc γ) (P : γ → Prop)
    (l : List β) :
    ∀ acc res, l.foldlM step acc = .ok res →
      (∀ a e a', e ∈ l → step a e = .ok a' → P a → P a') →
      P acc → P res := by
  induction l with
  | nil =>
    intro acc res h _ hP
    simp only [List.foldlM_nil, Pure.pure] at h
    cases h
    exact hP
  | cons x xs ih =>
    intro acc res h hstep hP
    rw [List.foldlM_cons] at h
    cases hs : step acc x with
    | error e => rw [hs] at h; simp [Bind.bind, Except.bind] at h
    | ok acc1 =>
      rw [hs] at h
      simp only [Bind.bind, Except.bind] at h
      exact ih acc1 res h (fun a e a' he => hstep a e a' (by simp [he]))
        (hstep acc x acc1 (by simp) hs hP)

/-- Decompose a successful `foldlM` over an append. -/
theorem foldlM_append_ok {β γ : Type} (step : γ → β → Except PyExc γ)
    (l1 l2 : List β) (acc res : γ)
    (h : (l1 ++ l2).foldlM step acc = .ok res) :
    ∃ mid, l1.foldlM step acc = .ok mid ∧ l2.foldlM step mid = .ok res := by
  rw [List.foldlM_append] at h
  cases h1 : l1.foldlM step acc with
  | error e => rw [h1] at h; simp [Bind.bind, Except.bind] at h
  | ok mid =>
    rw [h1] at h
    simp only [Bind.bind, Except.bind] at h
    exact ⟨mid, rfl, h⟩

/-- In a key-unique association list, two entries with equal keys are
the same entry. -/
theorem assoc_nodup_eq {α : Type} {l : List (String × α)}
    (h : (l.map (fun e => e.1)).Nodup) {k : String} {a b : α}
    (ha : (k, a) ∈ l) (hb : (k, b) ∈ l) : a = b := by
  induction l with
  | nil => simp at ha
  | cons e es ih =>
    simp only [List.map_cons, List.nodup_cons] at h
    rcases List.mem_cons.mp ha with ha1 | ha1 <;>
      rcases List.mem_cons.mp hb with hb1 | hb1
    · rw [← hb1] at ha1
      exact congrArg Prod.snd ha1
    · rw [← ha1] at h
      exact absurd (List.mem_map.mpr ⟨(k, b), hb1, rfl⟩) h.1
    · rw [← hb1] at h
      exact absurd (List.mem_map.mpr ⟨(k, a), ha1, rfl⟩) h.1
    · exact ih h.2 ha1 hb1

theorem build_lineage_ok_parts {runs : List (String × RunInfo)}
    {models : List (String × List (String × ModelVersionInfo))}
    {datasets : List (String × List (String × DatasetVersionInfo))}
    {lineage : List (String × LineageRec)}
    (h : build_lineage runs models datasets = .ok lineage) :
    ∃ l1 l2, runs.foldlM lineageRunStep [] = .ok l1 ∧
      models.foldlM lineageModelStep l1 = .ok l2 ∧
      datasets.foldlM lineageDatasetStep l2 = .ok lineage := by
  unfold build_lineage at h
  cases h1 : runs.foldlM lineageRunStep [] with
  | error e => rw [h1] at h; simp [Bind.bind, Except.bind] at h
  | ok l1 =>
    rw [h1] at h
    simp only [Bind.bind, Except.bind] at h
    cases h2 : models.foldlM lineageModelStep l1 with
    | error e => rw [h2] at h; simp at h
    | ok l2 =>
      rw [h2] at h
      simp only at h
      exact ⟨l1, l2, rfl, h2, h⟩

theorem lineageRunStep_preserves {acc : List (String × LineageRec)}
    {e : String × RunInfo} {acc' : List (String × LineageRec)} (k : String)
    (hst : lineageRunStep acc e = .ok acc') (hne : e.1 ≠ k) :
    alookup acc' k = alookup acc k := by
  unfold lineageRunStep at hst
  dsimp only at hst
  cases h1 : pyDictGet e.2.config "dataset" (.vstr "") with
  | error x => rw [h1] at hst; simp [Bind.bind, Except.bind] at hst
  | ok ds =>
    rw [h1] at hst
    simp only [Bind.bind, Except.bind] at hst
    cases h2 : pyDictGet e.2.config "model" (.vstr "") with
    | error x => rw [h2] at hst; simp at hst
    | ok md =>
      rw [h2] at hst
      simp only at hst
      cases h3 : pyDictGet e.2.config "experiment" (.vstr "") with
      | error x => rw [h3] at hst; simp at hst
      | ok ex =>
        rw [h3] at hst
        simp only [Pure.pure, Except.pure, Except.ok.injEq] at hst
        rw [← hst, alookup_dictInsert, if_neg (fun q => hne q.symm)]

theorem lineageRunStep_target {acc : List (String × LineageRec)}
    {e : String × RunInfo} {acc' : List (String × LineageRec)}
    (hst : lineageRunStep acc e = .ok acc') :
    ∃ ds md ex, pyDictGet e.2.config "dataset" (.vstr "") = .ok ds ∧
      pyDictGet e.2.config "model" (.vstr "") = .ok md ∧
      alookup acc' e.1 = some (.runRec (pyStr ds) (pyStr md) ex) := by
  unfold lineageRunStep at hst
  dsimp only at hst
  cases h1 : pyDictGet e.2.config "dataset" (.vstr "") with
  | error x => rw [h1] at hst; simp [Bind.bind, Except.bind] at hst
  | ok ds =>
    rw [h1] at hst
    simp only [Bind.bind, Except.bind] at hst
    cases h2 : pyDictGet e.2.config "model" (.vstr "") with
    | error x => rw [h2] at hst; simp at hst
    | ok md =>
      rw [h2] at hst
      simp only at hst
      cases h3 : pyDictGet e.2.config "experiment" (.vstr "") with
      | error x => rw [h3] at hst; simp at hst
      | ok ex =>
        rw [h3] at hst
        simp only [Pure.pure, Except.pure, Except.ok.injEq] at hst
        exact ⟨ds, md, ex, rfl, rfl, by rw [← hst, alookup_dictInsert, if_pos rfl]⟩

theorem lineageModelVersionStep_preserves {mname : String}
    {acc : List (String × LineageRec)} {ver : String × ModelVersionInfo}
    {acc' : List (String × LineageRec)} (k : String)
    (hst : lineageModelVersionStep mname acc ver = .ok acc')
    (hne : mname ++ "/" ++ ver.1 ≠ k) :
    alookup acc' k = alookup acc k := by
  unfold lineageModelVersionStep at hst
  dsimp only at hst
  cases h1 : pyDictGet ver.2.metadata "run_id" (.vstr "") with
  | error x => rw [h1] at hst; simp [Bind.bind, Except.bind] at hst
  | ok rid =>
    rw [h1] at hst
    simp only [Bind.bind, Except.bind] at hst
    by_cases hf : pyFalsy rid = true
    · rw [if_pos hf] at hst
      simp only [Pure.pure, Except.pure, Except.ok.injEq] at hst
      rw [← hst]
    · rw [if_neg hf] at hst
      cases h2 : pyDictGet ver.2.metadata "dataset" (.vdict []) with
      | error x => rw [h2] at hst; simp [Bind.bind, Except.bind] at hst
      | ok dsv =>
        rw [h2] at hst
        simp only [Bind.bind, Except.bind] at hst
        cases h3 : pyDictGet dsv "name" (.vstr "") with
        | error x => rw [h3] at hst; simp at hst
        | ok dsname =>
          rw [h3] at hst
          simp only [Pure.pure, Except.pure, Except.ok.injEq] at hst
          rw [← hst, alookup_dictInsert, if_neg (fun q => hne q.symm)]

theorem lineageModelVersionStep_target {mname : String}
    {acc : List (String × LineageRec)} {ver : String × ModelVersionInfo}
    {acc' : List (String × LineageRec)} {R : PyVal}
    (hst : lineageModelVersionStep mname acc ver = .ok acc')
    (hrid : pyDictGet ver.2.metadata "run_id" (.vstr "") = .ok R)
    (hfalsy : pyFalsy R = false) :
    ∃ dsv, alookup acc' (mname ++ "/" ++ ver.1) = some (.modelRec R dsv) := by
  unfold lineageModelVersionStep at hst
  dsimp only at hst
  rw [hrid] at hst
  simp only [Bind.bind, Except.bind, hfalsy, Bool.false_eq_true, if_neg,
    not_false_iff] at hst
  cases h2 : pyDictGet ver.2.metadata "dataset" (.vdict []) with
  | error x => rw [h2] at hst; simp [Bind.bind, Except.bind] at hst
  | ok dsv =>
    rw [h2] at hst
    simp only [Bind.bind, Except.bind] at hst
    cases h3 : pyDictGet dsv "name" (.vstr "") with
    | error x => rw [h3] at hst; simp at hst
    | ok dsname =>
      rw [h3] at hst
      simp only [Pure.pure, Except.pure, Except.ok.injEq] at hst
      exact ⟨dsname, by rw [← hst, alookup_dictInsert, if_pos rfl]⟩

theorem lineageModelVersionStep_skip {mname : String}
    {acc : List (String × LineageRec)} {ver : String × ModelVersionInfo}
    {acc' : List (String × LineageRec)} {R : PyVal}
    (hst : lineageModelVersionStep mname acc ver = .ok acc')
    (hrid : pyDictGet ver.2.metadata "run_id" (.vstr "") = .ok R)
    (hfalsy : pyFalsy R = true) :
    acc' = acc := by
  unfold lineageModelVersionStep at hst
  dsimp only at hst
  rw [hrid] at hst
  simp only [Bind.bind, Except.bind, hfalsy, if_pos, Pure.pure, Except.pure,
    Except.ok.injEq] at hst
  exact hst.symm

theorem lineageDatasetVersionStep_preserves {dname : String}
    {acc : List (String × LineageRec)} {ver : String × DatasetVersionInfo}
    {acc' : List (String × LineageRec)} (k : String)
    (hst : lineageDatasetVersionStep dname acc ver = .ok acc')
    (hne : dname ++ "/" ++ ver.1 ≠ k) :
    alookup acc' k = alookup acc k := by
  unfold lineageDatasetVersionStep at hst
  dsimp only at hst
  cases h1 : pyDictGet ver.2.metadata "derived_from" (.vdict []) with
  | error x => rw [h1] at hst; simp [Bind.bind, Except.bind] at hst
  | ok df =>
    rw [h1] at hst
    simp only [Bind.bind, Except.bind] at hst
    cases h2 : pyDictGet ver.2.metadata "source" (.vdict []) with
    | error x => rw [h2] at hst; simp at hst
    | ok src =>
      rw [h2] at hst
      simp only [Pure.pure, Except.pure, Except.ok.injEq] at hst
      rw [← hst, alookup_dictInsert, if_neg (fun q => hne q.symm)]

theorem lineageModelStep_preserves {acc : List (String × LineageRec)}
    {m : String × List (String × ModelVersionInfo)}
    {acc' : List (String × LineageRec)} (k : String)
    (hst : lineageModelStep acc m = .ok acc')
    (hne : ∀ v, v ∈ m.2 → m.1 ++ "/" ++ v.1 ≠ k) :
    alookup acc' k = alookup acc k := by
  unfold lineageModelStep at hst
  exact foldlM_invariant (lineageModelVersionStep m.1)
    (fun g => alookup g k = alookup acc k) m.2 acc acc' hst
    (fun a v a' hv hs hP =>
      (lineageModelVersionStep_preserves k hs (hne v hv)).trans hP) rfl

theorem lineageDatasetStep_preserves {acc : List (String × LineageRec)}
    {d : String × List (String × DatasetVersionInfo)}
    {acc' : List (String × LineageRec)} (k : String)
    (hst : lineageDatasetStep acc d = .ok acc')
    (hne : ∀ v, v ∈ d.2 → d.1 ++ "/" ++ v.1 ≠ k) :
    alookup acc' k = alookup acc k := by
  unfold lineageDatasetStep at hst
  exact foldlM_invariant (lineageDatasetVersionStep d.1)
    (fun g => alookup g k = alookup acc k) d.2 acc acc' hst
    (fun a v a' hv hs hP =>
      (lineageDatasetVersionStep_preserves k hs (hne v hv)).trans hP) rfl

/-- Counterexample to C4 as stated: the lineage mapping is flat and the
dataset phase runs last, so when a dataset version shares the id
`"a/v1"` with a model version whose metadata declares the non-empty
`run_id` `"r1"`, the dataset record overwrites the model record — the
record keyed `"a/v1"` has type `dataset` and carries no `run_id`
field. -/
theorem build_lineage_counterexample :
    pyFalsy (.vstr "r1") = false ∧
    build_lineage []
      [("a", [("v1", ⟨.vdict [(.kstr "run_id", .vstr "r1")], .vdict [], "", [], "models/a/v1"⟩)])]
      [("a", [("v1", ⟨.vdict [], [], "datasets/a/v1"⟩)])] =
      .ok [("a/v1", .datasetRec (.vdict []) (.vdict []))] ∧
    (LineageRec.datasetRec (.vdict []) (.vdict []) ≠
      LineageRec.modelRec (.vstr "r1") (.vstr "")) :=
  ⟨rfl, by decide, by decide⟩

/-- C4 (amended) — Lineage correctness of `build_lineage` over a built
index, provided the relevant id is not also produced by a later phase
(the flat mapping lets datasets overwrite models and models overwrite
runs under an equal id — see the counterexample): (1) for every
indexed run whose config declares `model=M` and `dataset=D`, the
lineage record keyed by that run-id has type run, `model==M` and
`dataset==D`; (2) for every indexed model version whose metadata
declares a non-empty `run_id=R`, the lineage record keyed
`"{model}/{version}"` has `run_id==R`; and (3) no `"{model}/{version}"`
key exists in the lineage mapping when the metadata declares no
(truthy) run-id and no other artifact produces that id. -/
theorem build_lineage_correct
    (runs : List (String × RunInfo))
    (models : List (String × List (String × ModelVersionInfo)))
    (datasets : List (String × List (String × DatasetVersionInfo)))
    (lineage : List (String × LineageRec))
    (hok : build_lineage runs models datasets = .ok lineage) :
    (∀ rid rinfo D M,
      (rid, rinfo) ∈ runs → (runs.map (fun e => e.1)).Nodup →
      pyDictGet rinfo.config "dataset" (.vstr "") = .ok (.vstr D) →
      pyDictGet rinfo.config "model" (.vstr "") = .ok (.vstr M) →
      (∀ m, m ∈ models → ∀ v, v ∈ m.2 → m.1 ++ "/" ++ v.1 ≠ rid) →
      (∀ d, d ∈ datasets → ∀ v, v ∈ d.2 → d.1 ++ "/" ++ v.1 ≠ rid) →
      ∃ ex, alookup lineage rid = some (.runRec D M ex)) ∧
    (∀ mname versions vname minfo R,
      (mname, versions) ∈ models → (vname, minfo) ∈ versions →
      pyDictGet minfo.metadata "run_id" (.vstr "") = .ok R → pyFalsy R = false →
      (models.map (fun e => e.1)).Nodup → (versions.map (fun e => e.1)).Nodup →
      (∀ m, m ∈ models → ∀ v, v ∈ m.2 →
        m.1 ++ "/" ++ v.1 = mname ++ "/" ++ vname → m.1 = mname ∧ v.1 = vname) →
      (∀ d, d ∈ datasets → ∀ v, v ∈ d.2 →
        d.1 ++ "/" ++ v.1 ≠ mname ++ "/" ++ vname) →
      ∃ dsv, alookup lineage (mname ++ "/" ++ vname) = some (.modelRec R dsv)) ∧
    (∀ mname versions vname minfo R,
      (mname, versions) ∈ models → (vname, minfo) ∈ versions →
      pyDictGet minfo.metadata "run_id" (.vstr "") = .ok R → pyFalsy R = true →
      (models.map (fun e => e.1)).Nodup → (versions.map (fun e => e.1)).Nodup →
      (∀ m, m ∈ models → ∀ v, v ∈ m.2 →
        m.1 ++ "/" ++ v.1 = mname ++ "/" ++ vname → m.1 = mname ∧ v.1 = vname) →
      (∀ d, d ∈ datasets → ∀ v, v ∈ d.2 →
        d.1 ++ "/" ++ v.1 ≠ mname ++ "/" ++ vname) →
      (∀ r, r ∈ runs → r.1 ≠ mname ++ "/" ++ vname) →
      alookup lineage (mname ++ "/" ++ vname) = none) := by
  obtain ⟨l1, l2, hf1, hf2, hf3⟩ := build_lineage_ok_parts hok
  refine ⟨?_, ?_, ?_⟩
  · intro rid rinfo D M hmem hnodup hD hM hmod hds
    obtain ⟨s, t, hsplit⟩ := List.append_of_mem hmem
    subst hsplit
    obtain ⟨accS, hfs, hrest⟩ := foldlM_append_ok _ s ((rid, rinfo) :: t) [] l1 hf1
    rw [List.foldlM_cons] at hrest
    cases hstep : lineageRunStep accS (rid, rinfo) with
    | error x => rw [hstep] at hrest; simp [Bind.bind, Except.bind] at hrest
    | ok acc1 =>
      rw [hstep] at hrest
      simp only [Bind.bind, Except.bind] at hrest
      obtain ⟨ds, md, ex, hds2, hmd2, hl⟩ := lineageRunStep_target hstep
      have hdseq : ds = .vstr D := Except.ok.inj (hds2.symm.trans hD)
      have hmdeq : md = .vstr M := Except.ok.inj (hmd2.symm.trans hM)
      rw [hdseq, hmdeq] at hl
      have ht : ∀ e, e ∈ t → e.1 ≠ rid := by
        rw [List.map_append, List.map_cons] at hnodup
        have h2 := hnodup.of_append_right
        have h3 := (List.nodup_cons.mp h2).1
        exact fun e he q => h3 (List.mem_map.mpr ⟨e, he, q⟩)
      have hl1 : alookup l1 rid = some (.runRec (pyStr (.vstr D)) (pyStr (.vstr M)) ex) :=
        foldlM_invariant lineageRunStep _ t acc1 l1 hrest
          (fun a e a' he hs hP => (lineageRunStep_preserves rid hs (ht e he)).trans hP) hl
      have hl2 : alookup l2 rid = some (.runRec (pyStr (.vstr D)) (pyStr (.vstr M)) ex) :=
        foldlM_invariant lineageModelStep _ models l1 l2 hf2
          (fun a m a' hm hs hP => (lineageModelStep_preserves rid hs
            (fun v hv => hmod m hm v hv)).trans hP) hl1
      have hl3 : alookup lineage rid = some (.runRec (pyStr (.vstr D)) (pyStr (.vstr M)) ex) :=
        foldlM_invariant lineageDatasetStep _ datasets l2 lineage hf3
          (fun a d a' hd hs hP => (lineageDatasetStep_preserves rid hs
            (fun v hv => hds d hd v hv)).trans hP) hl2
      exact ⟨ex, hl3⟩
  · intro mname versions vname minfo R hm hv hrid hfalsy hnodm hnodv huniq hdsne
    obtain ⟨s, t, hsplit⟩ := List.append_of_mem hm
    subst hsplit
    obtain ⟨accS, hfs, hrest⟩ := foldlM_append_ok _ s _ l1 l2 hf2
    rw [List.foldlM_cons] at hrest
    cases hstep : lineageModelStep accS (mname, versions) with
    | error x => rw [hstep] at hrest; simp [Bind.bind, Except.bind] at hrest
    | ok accM =>
      rw [hstep] at hrest
      simp only [Bind.bind, Except.bind] at hrest
      obtain ⟨sv, tv, hsplitv⟩ := List.append_of_mem hv
      unfold lineageModelStep at hstep
      rw [hsplitv] at hstep
      obtain ⟨accV, hfsv, hrestv⟩ := foldlM_append_ok _ sv _ accS accM hstep
      rw [List.foldlM_cons] at hrestv
      cases hstepv : lineageModelVersionStep mname accV (vname, minfo) with
      | error x => rw [hstepv] at hrestv; simp [Bind.bind, Except.bind] at hrestv
      | ok accV1 =>
        rw [hstepv] at hrestv
        simp only [Bind.bind, Except.bind] at hrestv
        obtain ⟨dsv, hlv⟩ := lineageModelVersionStep_target hstepv hrid hfalsy
        have htv : ∀ v', v' ∈ tv → mname ++ "/" ++ v'.1 ≠ mname ++ "/" ++ vname := by
          intro v' hv' q
          have hv'mem : v' ∈ versions := by rw [hsplitv]; simp [hv']
          have := (huniq (mname, versions) (by simp) v' hv'mem q).2
          rw [hsplitv, List.map_append, List.map_cons] at hnodv
          have h2 := hnodv.of_append_right
          exact (List.nodup_cons.mp h2).1 (List.mem_map.mpr ⟨v', hv', this⟩)
        have hM1 : alookup accM (mname ++ "/" ++ vname) = some (.modelRec R dsv) :=
          foldlM_invariant (lineageModelVersionStep mname) _ tv accV1 accM hrestv
            (fun a v' a' hv' hs hP =>
              (lineageModelVersionStep_preserves _ hs (htv v' hv')).trans hP) hlv
        have ht : ∀ m', m' ∈ t → ∀ v', v' ∈ m'.2 →
            m'.1 ++ "/" ++ v'.1 ≠ mname ++ "/" ++ vname := by
          intro m' hm' v' hv' q
          have hm'mem : m' ∈ s ++ (mname, versions) :: t := by simp [hm']
          have := (huniq m' hm'mem v' hv' q).1
          rw [List.map_append, List.map_cons] at hnodm
          have h2 := hnodm.of_append_right
          exact (List.nodup_cons.mp h2).1 (List.mem_map.mpr ⟨m', hm', this⟩)
        have hM2 : alookup l2 (mname ++ "/" ++ vname) = some (.modelRec R dsv) :=
          foldlM_invariant lineageModelStep _ t accM l2 hrest
            (fun a m' a' hm' hs hP => (lineageModelStep_preserves _ hs
              (fun v' hv' => ht m' hm' v' hv')).trans hP) hM1
        have hM3 : alookup lineage (mname ++ "/" ++ vname) = some (.modelRec R dsv) :=
          foldlM_invariant lineageDatasetStep _ datasets l2 lineage hf3
            (fun a d a' hd hs hP => (lineageDatasetStep_preserves _ hs
              (fun v' hv' => hdsne d hd v' hv')).trans hP) hM2
        exact ⟨dsv, hM3⟩
  · intro mname versions vname minfo R hm hv hrid hfalsy hnodm hnodv huniq hdsne hrne
    have hL1 : alookup l1 (mname ++ "/" ++ vname) = none :=
      foldlM_invariant lineageRunStep _ runs [] l1 hf1
        (fun a e a' he hs hP =>
          (lineageRunStep_preserves _ hs (hrne e he)).trans hP) rfl
    have hL2 : alookup l2 (mname ++ "/" ++ vname) = none := by
      refine foldlM_invariant lineageModelStep
        (fun g => alookup g (mname ++ "/" ++ vname) = none) models l1 l2 hf2 ?_ hL1
      intro a m' a' hm' hs hP
      unfold lineageModelStep at hs
      refine (foldlM_invariant (lineageModelVersionStep m'.1)
        (fun g => alookup g (mname ++ "/" ++ vname) = alookup a (mname ++ "/" ++ vname))
        m'.2 a a' hs ?_ rfl).trans hP
      intro a2 v' a2' hv' hs2 hP2
      by_cases hq : m'.1 ++ "/" ++ v'.1 = mname ++ "/" ++ vname
      · obtain ⟨hq1, hq2⟩ := huniq m' hm' v' hv' hq
        have hm'eq : m'.2 = versions := by
          have h1 : (m'.1, m'.2) ∈ models := by simpa using hm'
          rw [hq1] at h1
          exact assoc_nodup_eq hnodm h1 hm
        have hv'eq : v'.2 = minfo := by
          have h1 : (v'.1, v'.2) ∈ versions := by rw [← hm'eq]; simpa using hv'
          rw [hq2] at h1
          exact assoc_nodup_eq hnodv h1 hv
        have hrid' : pyDictGet v'.2.metadata "run_id" (.vstr "") = .ok R := by
          rw [hv'eq]; exact hrid
        rw [lineageModelVersionStep_skip hs2 hrid' hfalsy]
        exact hP2
      · exact (lineageModelVersionStep_preserves _ hs2 hq).trans hP2
    refine foldlM_invariant lineageDatasetStep
      (fun g => alookup g (mname ++ "/" ++ vname) = none) datasets l2 lineage hf3 ?_ hL2
    intro a d a' hd hs hP
    exact (lineageDatasetStep_preserves _ hs (fun v' hv' => hdsne d hd v' hv')).trans hP

/-- Witness for C4 (amended): a single model version `m/v1` declaring
`run_id = "r1"`, no runs and no datasets. -/
theorem build_lineage_correct_witness :
    ∃ dsv, alookup [("m/v1", LineageRec.modelRec (.vstr "r1") (.vstr ""))]
      ("m" ++ "/" ++ "v1") = some (.modelRec (.vstr "r1") dsv) :=
  (build_lineage_correct []
      [("m", [("v1", ⟨.vdict [(.kstr "run_id", .vstr "r1")], .vdict [], "", [], "models/m/v1"⟩)])]
      []
      [("m/v1", LineageRec.modelRec (.vstr "r1") (.vstr ""))]
      (by decide)).2.1
    "m" [("v1", ⟨.vdict [(.kstr "run_id", .vstr "r1")], .vdict [], "", [], "models/m/v1"⟩)]
    "v1" ⟨.vdict [(.kstr "run_id", .vstr "r1")], .vdict [], "", [], "models/m/v1"⟩
    (.vstr "r1") (by decide) (by decide) (by decide) (by decide) (by decide)
    (by decide) (by decide) (by decide)

/-- The mixed-failure workspace for C2: a mostly empty root whose only
content is an empty model version directory `models/m/v1`, which draws
warnings, while the missing layout draws errors. -/
def mixedWorkspace : Workspace :=
  ⟨"/w4", [("models", .dir [("m", .dir [("v1", .dir [])])])], false, []⟩

/-- A file whose YAML parse yields a non-empty mapping (used for the
configuration templates of the all-passing workspace). -/
def yamlDictFile : FSNode :=
  .file ⟨.ok (.vdict [(.kstr "schema", .vstr "base")]), .error "json", "", 64⟩

/-- A plain small file. -/
def plainFile : FSNode := .file ⟨.error "yaml", .error "json", "stub", 16⟩

/-- A workspace that passes every rule except for warnings: full
TFC-0001 layout, parseable templates, empty `datasets/` and `runs/`,
and one model version `models/m/v1` without its supplementary files
(warnings only), with Git LFS installed and `.gitattributes` carrying
an LFS filter. -/
def passingWorkspace : Workspace :=
  ⟨"/w5",
   [("configs", .dir
      [("datasets", .dir [("base.yaml", yamlDictFile)]),
       ("models", .dir [("base.yaml", yamlDictFile)]),
       ("training", .dir [("base.yaml", yamlDictFile)]),
       ("sweeps", .dir [("base.yaml", yamlDictFile)])]),
    ("data", .dir []),
    ("datasets", .dir []),
    ("docs", .dir []),
    ("environments", .dir [("system.yaml", plainFile)]),
    ("experiments", .dir []),
    ("models", .dir [("m", .dir [("v1", .dir [])])]),
    ("runs", .dir []),
    ("scripts", .dir []),
    ("spaces", .dir []),
    ("src", .dir []),
    ("tools", .dir []),
    ("README.md", plainFile),
    (".gitignore", plainFile),
    (".gitattributes", .file ⟨.error "yaml", .error "json",
       "*.pth filter=lfs diff=lfs merge=lfs -text", 43⟩),
    (".lfsconfig", plainFile),
    ("requirements.txt", plainFile),
    ("requirements-dev.txt", plainFile),
    ("requirements-gpu.txt", plainFile)],
   true, []⟩

/-- C2 — the exit classification evaluated at its failing inputs.
Composed behaviour of `validate_all_tfc` and `exit_with_code`: (a) on
`mixedWorkspace`, errors and warnings are both accumulated, yet the
caller sees exit code 1 ("degraded") rather than the hard failure the
specification requires for any accumulated error; (b) on
`passingWorkspace`, only warnings are accumulated, `success` stays
true (no rule folds warnings into its result), and the caller sees
exit code 0 (success) in non-strict mode rather than a degraded
outcome; (c) the same workspace under strict mode also exits 0 rather
than the hard failure required for warnings under strict mode.  The
code's own comments (`# Warnings only` / `# Errors`) and the
`--strict` help text ("Treat warnings as errors") describe the
specified behaviour, not the implemented one. -/
theorem exit_code_misclassification :
    ((validate_all_tfc mixedWorkspace none).run (initDoctor false)).map (fun r =>
      (r.1, r.2.errors.isEmpty, r.2.warnings.isEmpty, exit_with_code r.2 r.1)) =
      .ok (false, false, false, 1) ∧
    ((validate_all_tfc passingWorkspace none).run (initDoctor false)).map (fun r =>
      (r.1, r.2.errors.isEmpty, r.2.warnings.isEmpty, exit_with_code r.2 r.1)) =
      .ok (true, true, false, 0) ∧
    ((validate_all_tfc passingWorkspace none).run (initDoctor true)).map (fun r =>
      (r.1, r.2.errors.isEmpty, r.2.warnings.isEmpty, exit_with_code r.2 r.1)) =
      .ok (true, true, false, 0) := by
  refine ⟨by decide, by decide, by decide⟩
